import Mathlib

/-!
Verification of the marketing-posts orchestration core.

Shallow embedding of the repository's configuration manager
(`src/marketing_posts/core/config_manager.py`), crew factory and builder
(`core/crew_factory.py`, `core/base_crew.py`), concrete crews
(`crews/standard_crew.py`, `crews/gaming_crew.py`, `crew.py`) and result
formatting (`core/result_saver.py`), together with theorems settling the
frozen specification claims.

Python strings are Lean `String`s; parsed YAML documents are values of the
inductive type `Y`; Python dicts are association lists preserving insertion
order (as CPython dicts do); fallible operations return `Except`.
-/

set_option maxHeartbeats 1000000

/-- A parsed YAML value, as far as the configuration code inspects it:
`null`, a string scalar, a mapping, or any other value carried opaquely
together with its Python string conversion. -/
inductive Y where
  | null : Y
  | str : String → Y
  | dict : List (String × Y) → Y
  | other : String → Y

/-- First value bound to key `k`, scanning left to right (Python `d[k]` /
`d.get(k)` lookup on an insertion-ordered dict). -/
def assocFind {α : Type} (es : List (String × α)) (k : String) : Option α :=
  match es with
  | [] => none
  | (k0, v0) :: rest => if k0 = k then some v0 else assocFind rest k

/-- Python `d[k] = v` on an insertion-ordered dict: overwrite in place if the
key is present, else append at the end. -/
def pyDictSet {α : Type} (es : List (String × α)) (k : String) (v : α) :
    List (String × α) :=
  match es with
  | [] => [(k, v)]
  | (k0, v0) :: rest =>
    if k0 = k then (k0, v) :: rest else (k0, v0) :: pyDictSet rest k v

theorem assocFind_pyDictSet_self {α : Type} (es : List (String × α))
    (k : String) (v : α) : assocFind (pyDictSet es k v) k = some v := by
  induction es with
  | nil => simp [pyDictSet, assocFind]
  | cons hd tl ih =>
    obtain ⟨k0, v0⟩ := hd
    by_cases hk : k0 = k <;> simp [pyDictSet, assocFind, hk, ih]

theorem assocFind_pyDictSet_other {α : Type} (es : List (String × α))
    (k k2 : String) (v : α)
    (hne : k2 ≠ k) : assocFind (pyDictSet es k v) k2 = assocFind es k2 := by
  have hne2 : ¬ k = k2 := fun h => hne h.symm
  induction es with
  | nil => simp [pyDictSet, assocFind, hne2]
  | cons hd tl ih =>
    obtain ⟨k0, v0⟩ := hd
    by_cases hk : k0 = k
    · subst hk
      simp [pyDictSet, assocFind, hne2]
    · by_cases hk2 : k0 = k2 <;> simp [pyDictSet, assocFind, hk, hk2, ih, hne]

theorem assocFind_eq_none_iff {α : Type} (es : List (String × α)) (k : String) :
    assocFind es k = none ↔ k ∉ es.map Prod.fst := by
  induction es with
  | nil => simp [assocFind]
  | cons hd tl ih =>
    obtain ⟨k0, v0⟩ := hd
    by_cases hk : k0 = k
    · simp [assocFind, hk]
    · have : ¬ k = k0 := fun h => hk h.symm
      simp [assocFind, hk, ih, this]

/-- The exception raised by the configuration validators and the loader
(dataclass `ConfigValidationError` in `config_manager.py`). -/
structure ConfigValidationError where
  message : String
  config_file : String
  field : Option String := none

/-- Python `repr` of a string, for the strings this code produces: wrapped in
double quotes when the string contains a single quote (and no double quote),
else in single quotes, escaping backslashes and the delimiter. -/
def pyReprStr (s : String) : String :=
  let esc : Char → String := fun c =>
    if c = '\\' then "\\\\" else if c = '\x0a' then "\\n" else String.singleton c
  let body : String := String.join (s.data.map esc)
  if s.contains '\x27' && !(s.contains '\x22') then
    "\x22" ++ body ++ "\x22"
  else
    "\x27" ++ (String.join (s.data.map (fun c =>
      if c = '\x27' then "\\\x27" else esc c))) ++ "\x27"

/-- Python `str()` of a `ConfigValidationError`: the dataclass inherits
`BaseException.__str__`, which renders the constructor-argument tuple
(two or three strings, depending on whether `field` was passed). -/
def excStr (e : ConfigValidationError) : String :=
  match e.field with
  | some f =>
    "(" ++ pyReprStr e.message ++ ", " ++ pyReprStr e.config_file ++ ", "
      ++ pyReprStr f ++ ")"
  | none => "(" ++ pyReprStr e.message ++ ", " ++ pyReprStr e.config_file ++ ")"

/-- Required agent fields, in the declared validation order
(`AgentsConfigValidator.validate`). -/
def agentsRequiredFields : List String := ["role", "goal", "backstory"]

/-- Required task fields, in the declared validation order
(`TasksConfigValidator.validate`). -/
def tasksRequiredFields : List String := ["description", "expected_output"]

/-- First required field of `required` absent from entry `entryFields`,
reported as the validator does: message naming the entry and the field,
`field` attribute set to `entry.field`. -/
def firstMissingField (mkMsg : String → String → String) (doc entry : String)
    (required : List String) (entryFields : List (String × Y)) :
    Option ConfigValidationError :=
  match required with
  | [] => none
  | f :: rest =>
    match assocFind entryFields f with
    | some _ => firstMissingField mkMsg doc entry rest entryFields
    | none => some ⟨mkMsg entry f, doc, some (entry ++ "." ++ f)⟩

/-- One entry of the agents document (`AgentsConfigValidator.validate` body):
non-dict entries are rejected naming the entry; dict entries are scanned for
the three required fields in order. -/
def validateAgentEntry (name : String) (y : Y) : Option ConfigValidationError :=
  match y with
  | .dict fields =>
    firstMissingField
      (fun n f => "Агент \x27" ++ n ++ "\x27 отсутствует обязательное поле: " ++ f)
      "agents.yaml" name agentsRequiredFields fields
  | _ =>
    some ⟨"Конфигурация агента \x27" ++ name ++ "\x27 должна быть словарем",
      "agents.yaml", some name⟩

/-- Entries of the agents document, first violation wins. -/
def validateAgentEntries : List (String × Y) → Option ConfigValidationError
  | [] => none
  | (name, y) :: rest =>
    match validateAgentEntry name y with
    | some e => some e
    | none => validateAgentEntries rest

/-- `AgentsConfigValidator.validate`: `none` means the document passed;
`some e` is the first validation failure raised. -/
def agentsValidate (config : Y) : Option ConfigValidationError :=
  match config with
  | .dict entries => validateAgentEntries entries
  | _ => some ⟨"Конфигурация агентов должна быть словарем", "agents.yaml", none⟩

/-- One entry of the tasks document (`TasksConfigValidator.validate` body). -/
def validateTaskEntry (name : String) (y : Y) : Option ConfigValidationError :=
  match y with
  | .dict fields =>
    firstMissingField
      (fun n f => "Задача \x27" ++ n ++ "\x27 отсутствует обязательное поле: " ++ f)
      "tasks.yaml" name tasksRequiredFields fields
  | _ =>
    some ⟨"Конфигурация задачи \x27" ++ name ++ "\x27 должна быть словарем",
      "tasks.yaml", some name⟩

/-- Entries of the tasks document, first violation wins. -/
def validateTaskEntries : List (String × Y) → Option ConfigValidationError
  | [] => none
  | (name, y) :: rest =>
    match validateTaskEntry name y with
    | some e => some e
    | none => validateTaskEntries rest

/-- `TasksConfigValidator.validate`. -/
def tasksValidate (config : Y) : Option ConfigValidationError :=
  match config with
  | .dict entries => validateTaskEntries entries
  | _ => some ⟨"Конфигурация задач должна быть словарем", "tasks.yaml", none⟩

/-- The validator registry built in `ConfigManager.__init__`:
a validator for the `agents` and `tasks` document types, none otherwise. -/
def validatorFor (config_type : String) : Option (Y → Option ConfigValidationError) :=
  if config_type = "agents" then some agentsValidate
  else if config_type = "tasks" then some tasksValidate
  else none

/-- Errors `ConfigManager.load_config` raises to its caller. -/
inductive LoadErr where
  | fileNotFound : String → LoadErr
  | validation : ConfigValidationError → LoadErr

/-- The external file system: a path is either absent (`none`), present but
malformed YAML (`some (.error msg)`), or parses to a document. -/
def FS : Type := String → Option (Except String Y)

/-- The mutable state of a `ConfigManager`: its base path and its cache. -/
structure ConfigManager where
  base_path : String := "src/marketing_posts/config"
  cache : List (String × Y) := []

/-- Outcome of one `load_config` call: the returned value or raised error,
the manager state afterwards, and two probes recording whether the external
source was read and whether a validator was run during this call. -/
structure LoadOutcome where
  result : Except LoadErr Y
  cm : ConfigManager
  readSource : Bool
  ranValidator : Bool

/-- `ConfigManager.load_config`.  A cached key is returned at once; otherwise
the file is read and parsed, the registered validator (if any) is run, and the
document is cached on success only.  YAML errors become a
`ConfigValidationError` naming the file; any other exception raised inside the
`try` block — including the validator's own `ConfigValidationError` — is
caught by the final `except Exception` clause and re-wrapped into a new
`ConfigValidationError` whose `field` is `None`. -/
def load_config (fs : FS) (cm : ConfigManager) (config_type config_name : String) :
    LoadOutcome :=
  let cache_key := config_type ++ "_" ++ config_name
  match assocFind cm.cache cache_key with
  | some cached => ⟨.ok cached, cm, false, false⟩
  | none =>
    let config_path := cm.base_path ++ "/" ++ config_name
    match fs config_path with
    | none =>
      ⟨.error (.fileNotFound ("Файл конфигурации не найден: " ++ config_path)),
        cm, false, false⟩
    | some (.error ymsg) =>
      ⟨.error (.validation
          ⟨"Неверный YAML в " ++ config_name ++ ": " ++ ymsg, config_name, none⟩),
        cm, true, false⟩
    | some (.ok config) =>
      match validatorFor config_type with
      | some validator =>
        match validator config with
        | some e =>
          ⟨.error (.validation
              ⟨"Ошибка загрузки " ++ config_name ++ ": " ++ excStr e,
                config_name, none⟩),
            cm, true, true⟩
        | none =>
          ⟨.ok config,
            { cm with cache := pyDictSet cm.cache cache_key config }, true, true⟩
      | none =>
        ⟨.ok config,
          { cm with cache := pyDictSet cm.cache cache_key config }, true, false⟩

/-- A cache hit returns the cached document unchanged, reads nothing and
validates nothing. -/
theorem load_cached {fs : FS} {cm : ConfigManager} {t n : String} {d : Y}
    (h : assocFind cm.cache (t ++ "_" ++ n) = some d) :
    load_config fs cm t n = ⟨.ok d, cm, false, false⟩ := by
  unfold load_config
  simp [h]

/-- After a successful load, the document is in the cache under its key. -/
theorem load_ok_cache {fs : FS} {cm : ConfigManager} {t n : String} {d : Y}
    (h : (load_config fs cm t n).result = .ok d) :
    assocFind (load_config fs cm t n).cm.cache (t ++ "_" ++ n) = some d := by
  unfold load_config at h ⊢
  cases hx : assocFind cm.cache (t ++ "_" ++ n) with
  | some c =>
    simp [hx] at h
    subst h
    simp [hx]
  | none =>
    cases hfs : fs (cm.base_path ++ "/" ++ n) with
    | none => simp [hx, hfs] at h
    | some pr =>
      cases pr with
      | error m => simp [hx, hfs] at h
      | ok cfg =>
        cases hv : validatorFor t with
        | none =>
          simp [hx, hfs, hv] at h ⊢
          rw [← h]
          exact assocFind_pyDictSet_self _ _ _
        | some validator =>
          cases hval : validator cfg with
          | some e => simp [hx, hfs, hv, hval] at h
          | none =>
            simp [hx, hfs, hv, hval] at h ⊢
            rw [← h]
            exact assocFind_pyDictSet_self _ _ _

/-- C4: once a `(documentType, documentName)` key has loaded successfully,
every further load of the same key on the same store returns the identical
cached document, does not read the external source again and does not run the
validator again; the store state is left unchanged, so the same holds for all
subsequent loads. -/
theorem c4_repeat_load_is_cached (fs : FS) (cm : ConfigManager)
    (t n : String) (d : Y) (h : (load_config fs cm t n).result = .ok d) :
    load_config fs (load_config fs cm t n).cm t n =
      ⟨.ok d, (load_config fs cm t n).cm, false, false⟩ :=
  load_cached (load_ok_cache h)

/-- A file system exposing exactly one agents file with the given parsed
content, at the default base path (used to instantiate theorems). -/
def fsOneAgents (doc : Y) : FS := fun p =>
  if p = "src/marketing_posts/config/agents.yaml" then some (.ok doc) else none

/-- Witness for C4 at a one-file file system and an empty cache. -/
theorem c4_repeat_load_is_cached_witness :
    (load_config (fsOneAgents (Y.dict [])) {} "agents" "agents.yaml").result
        = .ok (Y.dict []) ∧
    load_config (fsOneAgents (Y.dict []))
        (load_config (fsOneAgents (Y.dict [])) {} "agents" "agents.yaml").cm
        "agents" "agents.yaml" =
      ⟨.ok (Y.dict []),
        (load_config (fsOneAgents (Y.dict [])) {} "agents" "agents.yaml").cm,
        false, false⟩ :=
  ⟨rfl, c4_repeat_load_is_cached _ _ _ _ _ rfl⟩

/-- If some required field is absent from an entry, the field scan reports an
error (the first one in the declared order). -/
theorem firstMissingField_isSome (mkMsg : String → String → String)
    (doc entry : String) (required : List String) (l : List (String × Y))
    (f : String) (hf : f ∈ required) (habs : assocFind l f = none) :
    (firstMissingField mkMsg doc entry required l).isSome := by
  induction required with
  | nil => cases hf
  | cons r rest ih =>
    unfold firstMissingField
    cases hr : assocFind l r with
    | none => simp
    | some v =>
      rcases List.mem_cons.mp hf with hfr | hfrest
      · subst hfr
        rw [hr] at habs
        cases habs
      · simpa using ih hfrest

/-- If some entry of the agents document is a mapping missing a required
field, the agents validator rejects the document. -/
theorem validateAgentEntries_isSome (es : List (String × Y)) (name : String)
    (l : List (String × Y)) (f : String)
    (hmem : (name, Y.dict l) ∈ es) (hf : f ∈ agentsRequiredFields)
    (habs : assocFind l f = none) :
    (validateAgentEntries es).isSome := by
  induction es with
  | nil => cases hmem
  | cons hd rest ih =>
    obtain ⟨n0, y0⟩ := hd
    unfold validateAgentEntries
    cases he : validateAgentEntry n0 y0 with
    | some e => simp
    | none =>
      rcases List.mem_cons.mp hmem with hhd | hrest
      · exfalso
        injection hhd with h1 h2
        subst h1
        rw [← h2] at he
        simp only [validateAgentEntry] at he
        have := firstMissingField_isSome
          (fun n f =>
            "Агент \x27" ++ n ++ "\x27 отсутствует обязательное поле: " ++ f)
          "agents.yaml" name agentsRequiredFields l f hf habs
        rw [he] at this
        cases this
      · simpa using ih hrest

/-- The `field` attribute of the `ConfigValidationError` a load result carries,
if the result is such an error (`some e.field`), `none` otherwise. -/
def loadErrField : Except LoadErr Y → Option (Option String)
  | .error (.validation e) => some e.field
  | _ => none

/-- Loading an agents document with a mapping entry missing a required field
fails with the wrapped (field-less) error; shared helper for the theorems
below. -/
theorem load_config_agents_invalid (fs : FS) (cm : ConfigManager)
    (config_name : String) (es l : List (String × Y)) (name f : String)
    (hkey : assocFind cm.cache ("agents_" ++ config_name) = none)
    (hfs : fs (cm.base_path ++ "/" ++ config_name) = some (.ok (Y.dict es)))
    (hmem : (name, Y.dict l) ∈ es) (hf : f ∈ agentsRequiredFields)
    (habs : assocFind l f = none) :
    ∃ e, agentsValidate (Y.dict es) = some e ∧
      load_config fs cm "agents" config_name =
        ⟨.error (.validation
            ⟨"Ошибка загрузки " ++ config_name ++ ": " ++ excStr e,
              config_name, none⟩),
          cm, true, true⟩ := by
  obtain ⟨e, he⟩ := Option.isSome_iff_exists.mp
    (validateAgentEntries_isSome es name l f hmem hf habs)
  refine ⟨e, by simpa [agentsValidate] using he, ?_⟩
  unfold load_config
  simp [hkey, hfs, validatorFor, agentsValidate, he]

/-- C1 (amended): loading an agents document in which some entry is a mapping
missing a required field does fail, and the internal validator error names the
offending entry and field; but `load_config` catches that error in its
catch-all `except Exception` clause and raises a fresh `ConfigValidationError`
whose `field` attribute is `None`, with the validator diagnosis only embedded
(via `str(e)`) in the new message.  The caller therefore observes the
offending document name but not a `field` attribute of the form
`<entry>.<field>`. -/
theorem c1_load_wraps_validator_error (fs : FS) (cm : ConfigManager)
    (config_name : String) (es l : List (String × Y)) (name f : String)
    (hkey : assocFind cm.cache ("agents_" ++ config_name) = none)
    (hfs : fs (cm.base_path ++ "/" ++ config_name) = some (.ok (Y.dict es)))
    (hmem : (name, Y.dict l) ∈ es) (hf : f ∈ agentsRequiredFields)
    (habs : assocFind l f = none) :
    ∃ e, agentsValidate (Y.dict es) = some e ∧
      load_config fs cm "agents" config_name =
        ⟨.error (.validation
            ⟨"Ошибка загрузки " ++ config_name ++ ": " ++ excStr e,
              config_name, none⟩),
          cm, true, true⟩ :=
  load_config_agents_invalid fs cm config_name es l name f hkey hfs hmem hf habs

/-- Witness for the amended C1 theorem at a concrete document whose single
entry `a` lacks the `goal` field. -/
theorem c1_load_wraps_validator_error_witness :
    ∃ e, agentsValidate (Y.dict [("a", Y.dict [("role", Y.str "r")])]) = some e ∧
      load_config (fsOneAgents (Y.dict [("a", Y.dict [("role", Y.str "r")])]))
          {} "agents" "agents.yaml" =
        ⟨.error (.validation
            ⟨"Ошибка загрузки " ++ "agents.yaml" ++ ": " ++ excStr e,
              "agents.yaml", none⟩),
          {}, true, true⟩ :=
  c1_load_wraps_validator_error _ _ _ _ [("role", Y.str "r")] "a" "goal" rfl rfl
    (by simp) (by simp [agentsRequiredFields]) rfl

/-- C1, as stated, is false: for the document whose entry `a` lacks `goal`,
the claim requires the caller-observed `ConfigValidationError` to carry
`field = "a.goal"`, but the error actually raised by `load_config` carries
`field = None` (the precise error is swallowed by the catch-all wrapper). -/
theorem c1_counterexample :
    loadErrField (load_config
        (fsOneAgents (Y.dict [("a", Y.dict [("role", Y.str "r")])]))
        {} "agents" "agents.yaml").result = some none ∧
    loadErrField (load_config
        (fsOneAgents (Y.dict [("a", Y.dict [("role", Y.str "r")])]))
        {} "agents" "agents.yaml").result ≠ some (some ("a" ++ "." ++ "goal")) := by
  constructor
  · rfl
  · intro h
    rw [show loadErrField (load_config
        (fsOneAgents (Y.dict [("a", Y.dict [("role", Y.str "r")])]))
        {} "agents" "agents.yaml").result = some none from rfl] at h
    simp at h

/-- `CrewConfig` (dataclass in `core/base_crew.py`), with its field defaults. -/
structure CrewConfig where
  llm_provider : String := "deepseek"
  llm_model : Option String := none
  agents_config : String := "config/agents.yaml"
  tasks_config : String := "config/tasks.yaml"
  verbose : Bool := true
  memory : Bool := false
  deriving DecidableEq

/-- A Python exception as observed by factory callers: either the
`ValueError` the factory itself raises, or anything a crew constructor
raised, carried opaquely. -/
inductive PyExc where
  | valueError : String → PyExc
  | other : String → PyExc

/-- Python `repr` of a list of strings, as an f-string renders
`available_types` in `create_crew`. -/
def pyListReprStr (l : List String) : String :=
  "[" ++ String.intercalate ", " (l.map pyReprStr) ++ "]"

/-- `CrewFactory.register_crew_type`: store or overwrite the mapping, no
validation of the constructor.  The registry is the insertion-ordered dict
`_crew_registry`; `κ` is the (unconstrained) type of constructed crews. -/
def register_crew_type {κ : Type}
    (reg : List (String × (CrewConfig → Except PyExc κ)))
    (crew_type : String) (crew_class : CrewConfig → Except PyExc κ) :
    List (String × (CrewConfig → Except PyExc κ)) :=
  pyDictSet reg crew_type crew_class

/-- `CrewFactory.get_available_crew_types`: the registry keys in dict order. -/
def get_available_crew_types {κ : Type}
    (reg : List (String × (CrewConfig → Except PyExc κ))) : List String :=
  reg.map Prod.fst

/-- `CrewFactory.create_crew`: an unregistered type raises a `ValueError`
listing the available types; a registered type's constructor is invoked and
its outcome — value or raised exception — is returned unchanged. -/
def create_crew {κ : Type}
    (reg : List (String × (CrewConfig → Except PyExc κ)))
    (crew_type : String) (config : CrewConfig) : Except PyExc κ :=
  match assocFind reg crew_type with
  | none =>
    .error (.valueError ("Неизвестный тип crew: " ++ crew_type
      ++ ". Доступные типы: " ++ pyListReprStr (get_available_crew_types reg)))
  | some crew_class => crew_class config

/-- `CrewFactory.validate_crew_config`: attempt a full construction, collapse
any failure into `false`. -/
def validate_crew_config {κ : Type}
    (reg : List (String × (CrewConfig → Except PyExc κ)))
    (crew_type : String) (config : CrewConfig) : Bool :=
  match assocFind reg crew_type with
  | none => false
  | some crew_class =>
    match crew_class config with
    | .ok _ => true
    | .error _ => false

/-- A registry built by a sequence of `register_crew_type` calls starting from
the empty registry of `CrewFactory.__init__`. -/
def buildRegistry {κ : Type}
    (regs : List (String × (CrewConfig → Except PyExc κ))) :
    List (String × (CrewConfig → Except PyExc κ)) :=
  regs.foldl (fun r p => register_crew_type r p.1 p.2) []

/-- Keys in first-registration order: later re-registrations of a key do not
move it (CPython dict update-in-place semantics). -/
def firstRegistered (ts : List String) : List String :=
  ts.foldl (fun ks t => if t ∈ ks then ks else ks ++ [t]) []

theorem map_fst_pyDictSet {α : Type} (es : List (String × α)) (k : String)
    (v : α) :
    (pyDictSet es k v).map Prod.fst =
      if k ∈ es.map Prod.fst then es.map Prod.fst else es.map Prod.fst ++ [k] := by
  induction es with
  | nil => simp [pyDictSet]
  | cons hd tl ih =>
    obtain ⟨k0, v0⟩ := hd
    by_cases hk : k0 = k
    · subst hk
      simp [pyDictSet]
    · have : ¬ k = k0 := fun h => hk h.symm
      by_cases hmem : k ∈ tl.map Prod.fst <;>
        simp [pyDictSet, hk, this, hmem, ih]

theorem buildRegistry_keys {κ : Type}
    (regs : List (String × (CrewConfig → Except PyExc κ))) :
    (buildRegistry regs).map Prod.fst = firstRegistered (regs.map Prod.fst) := by
  suffices h : ∀ acc : List (String × (CrewConfig → Except PyExc κ)),
      (regs.foldl (fun r p => register_crew_type r p.1 p.2) acc).map Prod.fst =
        (regs.map Prod.fst).foldl
          (fun ks t => if t ∈ ks then ks else ks ++ [t]) (acc.map Prod.fst) by
    simpa [buildRegistry, firstRegistered] using h []
  induction regs with
  | nil => intro acc; simp
  | cons hd tl ih =>
    intro acc
    obtain ⟨t0, c0⟩ := hd
    simp only [List.foldl_cons, List.map_cons]
    rw [ih]
    rw [register_crew_type, map_fst_pyDictSet]

/-- C8: creating an unregistered crew type fails with a `ValueError` whose
listed available types are exactly the registered identifiers in
first-registration order; creating a registered type invokes its registered
constructor and returns that constructor's outcome — success or raised
failure — unchanged. -/
theorem c8_create_crew_spec (κ : Type)
    (regs : List (String × (CrewConfig → Except PyExc κ)))
    (t : String) (config : CrewConfig) :
    (t ∉ (regs.map Prod.fst) →
      create_crew (buildRegistry regs) t config =
        .error (.valueError ("Неизвестный тип crew: " ++ t
          ++ ". Доступные типы: "
          ++ pyListReprStr (firstRegistered (regs.map Prod.fst))))) ∧
    (∀ c, assocFind (buildRegistry regs) t = some c →
      create_crew (buildRegistry regs) t config = c config) := by
  constructor
  · intro hmem
    have hkeys := buildRegistry_keys regs
    have hnone : assocFind (buildRegistry regs) t = none := by
      rw [assocFind_eq_none_iff, hkeys]
      intro hin
      apply hmem
      have : ∀ ts : List String, t ∈ firstRegistered ts → t ∈ ts := by
        intro ts
        suffices h : ∀ acc : List String,
            t ∈ ts.foldl (fun ks u => if u ∈ ks then ks else ks ++ [u]) acc →
              t ∈ ts ∨ t ∈ acc by
          intro hmem2
          rcases h [] (by simpa [firstRegistered] using hmem2) with h1 | h1
          · exact h1
          · cases h1
        induction ts with
        | nil => intro acc h; exact Or.inr h
        | cons u rest ih =>
          intro acc h
          simp only [List.foldl_cons] at h
          rcases ih _ h with h1 | h1
          · exact Or.inl (List.mem_cons_of_mem _ h1)
          · by_cases hu : u ∈ acc
            · simp [hu] at h1
              exact Or.inr h1
            · simp [hu] at h1
              rcases h1 with h2 | h2
              · exact Or.inr h2
              · subst h2
                exact Or.inl (List.mem_cons_self _ _)
      exact this _ hin
    rw [create_crew, hnone, get_available_crew_types, hkeys]
  · intro c hc
    rw [create_crew, hc]

/-- Witness for C8: a registry with `standard` and `gaming` registered (and
`standard` re-registered once) rejects an unknown type naming both available
types in first-registration order, and dispatches a registered type to its
constructor. -/
theorem c8_create_crew_spec_witness :
    create_crew (buildRegistry
        [("standard", Except.ok), ("gaming", Except.ok), ("standard", Except.ok)])
      "unknown" {} =
      .error (.valueError ("Неизвестный тип crew: " ++ "unknown"
        ++ ". Доступные типы: "
        ++ pyListReprStr (firstRegistered ["standard", "gaming", "standard"]))) ∧
    create_crew (buildRegistry
        [("standard", Except.ok), ("gaming", Except.ok), ("standard", Except.ok)])
      "standard" {} = Except.ok {} := by
  constructor
  · have h := (c8_create_crew_spec CrewConfig
      [("standard", Except.ok), ("gaming", Except.ok), ("standard", Except.ok)]
      "unknown" {}).1 (by decide)
    simpa using h
  · have h := (c8_create_crew_spec CrewConfig
      [("standard", Except.ok), ("gaming", Except.ok), ("standard", Except.ok)]
      "standard" {}).2 Except.ok rfl
    simpa using h

/-- One fluent setter call on `CrewBuilder` (`core/crew_factory.py`). -/
inductive BuilderOp where
  | with_llm_provider : String → BuilderOp
  | with_llm_model : String → BuilderOp
  | with_agents_config : String → BuilderOp
  | with_tasks_config : String → BuilderOp
  | with_verbose : Bool → BuilderOp
  | with_memory : Bool → BuilderOp

/-- Effect of one setter on the builder's `_config` object: each setter
assigns one field of the same mutable `CrewConfig` instance allocated in
`CrewBuilder.__init__` and returns `self`. -/
def applyBuilderOp (c : CrewConfig) : BuilderOp → CrewConfig
  | .with_llm_provider p => { c with llm_provider := p }
  | .with_llm_model m => { c with llm_model := some m }
  | .with_agents_config p => { c with agents_config := p }
  | .with_tasks_config p => { c with tasks_config := p }
  | .with_verbose v => { c with verbose := v }
  | .with_memory m => { c with memory := m }

/-- The value of the builder's single `_config` cell after the given setter
calls, starting from the `CrewConfig()` defaults. -/
def builderConfigAfter (ops : List BuilderOp) : CrewConfig :=
  ops.foldl applyBuilderOp {}

/-- The configuration value at the moment `build()` returns, after the setter
calls `pre`. -/
def builtSnapshot (pre : List BuilderOp) : CrewConfig :=
  builderConfigAfter pre

/-- What a caller holding the object returned by `build()` observes after the
same builder has performed `post` further setter calls: `build()` returns
`self._config` itself (no copy, and `CrewConfig` is a non-frozen dataclass),
so the returned reference sees the cell's current value, i.e. the fold of all
setter calls made before and after `build()`. -/
def builtObservedAfter (pre post : List BuilderOp) : CrewConfig :=
  builderConfigAfter (pre ++ post)

/-- The `create_standard_config` preset: provider only. -/
def create_standard_config : List BuilderOp :=
  [.with_llm_provider "deepseek"]

/-- The `create_gaming_config` preset: provider plus alternate documents. -/
def create_gaming_config : List BuilderOp :=
  [.with_llm_provider "deepseek",
   .with_agents_config "config/agents_gaming.yaml",
   .with_tasks_config "config/tasks_gaming.yaml"]

/-- C7, as stated, is false: after `build()` returns (here with no prior
setter calls), one further `with_verbose(False)` call on the same builder
changes the `verbose` field of the configuration that `build()` returned. -/
theorem c7_counterexample :
    builtObservedAfter [] [BuilderOp.with_verbose false] ≠ builtSnapshot []
      ∧ (builtObservedAfter [] [BuilderOp.with_verbose false]).verbose = false
      ∧ (builtSnapshot []).verbose = true := by
  refine ⟨?_, rfl, rfl⟩
  intro h
  have : (builtObservedAfter [] [BuilderOp.with_verbose false]).verbose
      = (builtSnapshot []).verbose := by rw [h]
  simp [builtObservedAfter, builtSnapshot, builderConfigAfter,
    applyBuilderOp] at this

/-- C7 (amended): the configuration `build()` returns is the builder's live
`_config` object, not a snapshot: what its holder observes after further
setter calls equals the snapshot with those calls applied on top, and it is
unchanged exactly when no further setter call is made. -/
theorem c7_built_config_is_live (pre post : List BuilderOp) :
    builtObservedAfter pre post = post.foldl applyBuilderOp (builtSnapshot pre)
      ∧ builtObservedAfter pre [] = builtSnapshot pre := by
  constructor
  · rw [builtObservedAfter, builderConfigAfter, List.foldl_append]
    rfl
  · rw [builtObservedAfter, List.append_nil]
    rfl

/-- A Python value as the result formatter observes one: a string, or any
other object carried with its `str()` conversion and its truthiness. -/
inductive PyVal where
  | str : String → PyVal
  | other : String → Bool → PyVal

/-- Python `str()` of a `PyVal`. -/
def pyStr : PyVal → String
  | .str s => s
  | .other r _ => r

/-- Python truthiness of a `PyVal`: a string is truthy iff non-empty. -/
def pyTruthy : PyVal → Bool
  | .str s => !s.isEmpty
  | .other _ t => t

/-- The `agent` attribute of an engine task result, as `_write_task_result`
reads it: an object with an optional `name` attribute. -/
structure AgentAttr where
  name : Option PyVal := none

/-- An engine task result of unknown concrete shape: each attribute the
result saver probes with `hasattr` is optional (`none` means the attribute is
absent; for `agent` it also covers a falsy attribute, which the code treats
identically), plus the object's `str()` conversion. -/
structure TaskResultObj where
  raw : Option PyVal := none
  result : Option PyVal := none
  output : Option PyVal := none
  agent : Option AgentAttr := none
  name : Option PyVal := none
  strConv : String := ""

/-- Tail of `ResultFormatter.format_task_result` after the `raw` branch has
been rejected: `result` if present, else `output` if present, else `str()`. -/
def format_task_result_rest (tr : TaskResultObj) : String :=
  match tr.result with
  | some v => pyStr v
  | none =>
    match tr.output with
    | some v => pyStr v
    | none => tr.strConv

/-- `ResultFormatter.format_task_result`: a present and truthy `raw` wins,
else fall through the `result`/`output`/`str()` chain. -/
def format_task_result (tr : TaskResultObj) : String :=
  match tr.raw with
  | some v => if pyTruthy v then pyStr v else format_task_result_rest tr
  | none => format_task_result_rest tr

/-- Python `str.replace` on character lists, left to right, non-overlapping,
with a step budget (`fuel` is initialised to the list length, which the
recursion never exhausts since every step consumes at least one character).
The empty pattern — which this code never uses — is left unreplaced. -/
def replaceFuel (pat rep : List Char) : Nat → List Char → List Char
  | 0, s => s
  | _ + 1, [] => []
  | fuel + 1, c :: rest =>
    if pat.isPrefixOf (c :: rest) && !pat.isEmpty then
      rep ++ replaceFuel pat rep fuel ((c :: rest).drop pat.length)
    else
      c :: replaceFuel pat rep fuel rest

/-- Python `s.replace(pat, rep)`. -/
def pyReplace (s pat rep : String) : String :=
  String.mk (replaceFuel pat.data rep.data s.data.length s.data)

/-- Python `s.startswith(pat)`. -/
def pyStartsWith (s pat : String) : Bool := pat.data.isPrefixOf s.data

/-- Python `s.endswith(pat)`. -/
def pyEndsWith (s pat : String) : Bool := pat.data.isSuffixOf s.data

/-- Python `s.find(pat)`: smallest character index where `pat` occurs, `-1`
if it does not. -/
def pyFind (s pat : String) : Int :=
  match (List.range (s.data.length + 1)).find?
      (fun i => pat.data.isPrefixOf (s.data.drop i)) with
  | some i => (i : Int)
  | none => -1

/-- Python `s.rfind(pat)`: largest character index where `pat` occurs, `-1`
if it does not. -/
def pyRfind (s pat : String) : Int :=
  match (List.range (s.data.length + 1)).reverse.find?
      (fun i => pat.data.isPrefixOf (s.data.drop i)) with
  | some i => (i : Int)
  | none => -1

/-- The three escape-artifact replacements at the top of
`ResultFormatter.clean_text`, in source order. -/
def cleanReplace (text : String) : String :=
  pyReplace (pyReplace (pyReplace text "\\n" "\x0a") "\\\x22" "\x22") "\\\x27" "\x27"

/-- The tuple-extraction step of `clean_text`: when the text looks like the
stringified pair `(\x27raw\x27, \x27<payload>\x27)` and the index guards of the source
hold, the payload slice `text[start_idx:end_idx]`; `none` otherwise (text kept
unchanged). -/
def extractRawTuplePayload (text : String) : Option String :=
  if pyStartsWith text "(\x27raw\x27, \x27" && pyEndsWith text "\x27)" then
    let start_idx : Int := pyFind text "(\x27raw\x27, \x27" + 9
    let end_idx : Int := pyRfind text "\x27)"
    if start_idx > 8 && end_idx > start_idx then
      some (String.mk ((text.data.drop start_idx.toNat).take
        (end_idx.toNat - start_idx.toNat)))
    else none
  else none

/-- Python `str.encode(\x27latin-1\x27)`: one byte per character below 256;
characters above 255 raise `UnicodeEncodeError` (`none`). -/
def encodeLatin1 (cs : List Char) : Option (List Nat) :=
  cs.mapM (fun c => if c.toNat ≤ 255 then some c.toNat else none)

def isOctDigitByte (b : Nat) : Bool := 48 ≤ b && b ≤ 55

def isHexDigitByte (b : Nat) : Bool :=
  (48 ≤ b && b ≤ 57) || (97 ≤ b && b ≤ 102) || (65 ≤ b && b ≤ 70)

def hexByteVal (b : Nat) : Nat :=
  if b ≤ 57 then b - 48 else if b ≤ 70 then b - 55 else b - 87

/-- Python `bytes.decode(\x27unicode_escape\x27)` to a list of code points:
non-backslash bytes decode as Latin-1; backslash escapes follow CPython's
table (single-character escapes, line continuation, up to three octal digits,
`\x`/`\u`/`\U` with a fixed number of hex digits, unknown escapes kept
verbatim); a trailing backslash, malformed hex escapes, out-of-range `\U`
values and `\N` named escapes are decode errors (`none`). -/
def decodeUEFuel : Nat → List Nat → Option (List Nat)
  | 0, [] => some []
  | 0, _ :: _ => none
  | _ + 1, [] => some []
  | _ + 1, 92 :: [] => none
  | f + 1, 92 :: 10 :: rest => decodeUEFuel f rest
  | f + 1, 92 :: 92 :: rest => (decodeUEFuel f rest).map (fun l => 92 :: l)
  | f + 1, 92 :: 39 :: rest => (decodeUEFuel f rest).map (fun l => 39 :: l)
  | f + 1, 92 :: 34 :: rest => (decodeUEFuel f rest).map (fun l => 34 :: l)
  | f + 1, 92 :: 97 :: rest => (decodeUEFuel f rest).map (fun l => 7 :: l)
  | f + 1, 92 :: 98 :: rest => (decodeUEFuel f rest).map (fun l => 8 :: l)
  | f + 1, 92 :: 102 :: rest => (decodeUEFuel f rest).map (fun l => 12 :: l)
  | f + 1, 92 :: 110 :: rest => (decodeUEFuel f rest).map (fun l => 10 :: l)
  | f + 1, 92 :: 114 :: rest => (decodeUEFuel f rest).map (fun l => 13 :: l)
  | f + 1, 92 :: 116 :: rest => (decodeUEFuel f rest).map (fun l => 9 :: l)
  | f + 1, 92 :: 118 :: rest => (decodeUEFuel f rest).map (fun l => 11 :: l)
  | f + 1, 92 :: 120 :: b1 :: b2 :: rest =>
    if isHexDigitByte b1 && isHexDigitByte b2 then
      (decodeUEFuel f rest).map (fun l => (hexByteVal b1 * 16 + hexByteVal b2) :: l)
    else none
  | _ + 1, 92 :: 120 :: _ => none
  | f + 1, 92 :: 117 :: b1 :: b2 :: b3 :: b4 :: rest =>
    if isHexDigitByte b1 && isHexDigitByte b2 && isHexDigitByte b3
        && isHexDigitByte b4 then
      (decodeUEFuel f rest).map (fun l =>
        (((hexByteVal b1 * 16 + hexByteVal b2) * 16 + hexByteVal b3) * 16
          + hexByteVal b4) :: l)
    else none
  | _ + 1, 92 :: 117 :: _ => none
  | f + 1, 92 :: 85 :: b1 :: b2 :: b3 :: b4 :: b5 :: b6 :: b7 :: b8 :: rest =>
    if isHexDigitByte b1 && isHexDigitByte b2 && isHexDigitByte b3
        && isHexDigitByte b4 && isHexDigitByte b5 && isHexDigitByte b6
        && isHexDigitByte b7 && isHexDigitByte b8 then
      let v := ((((((hexByteVal b1 * 16 + hexByteVal b2) * 16 + hexByteVal b3) * 16
        + hexByteVal b4) * 16 + hexByteVal b5) * 16 + hexByteVal b6) * 16
        + hexByteVal b7) * 16 + hexByteVal b8
      if v ≤ 0x10ffff then
        (decodeUEFuel f rest).map (fun l => v :: l)
      else none
    else none
  | _ + 1, 92 :: 85 :: _ => none
  | _ + 1, 92 :: 78 :: _ => none
  | f + 1, 92 :: c :: rest =>
    if isOctDigitByte c then
      match rest with
      | d2 :: rest2 =>
        if isOctDigitByte d2 then
          match rest2 with
          | d3 :: rest3 =>
            if isOctDigitByte d3 then
              (decodeUEFuel f rest3).map (fun l =>
                (((c - 48) * 8 + (d2 - 48)) * 8 + (d3 - 48)) :: l)
            else
              (decodeUEFuel f rest2).map (fun l =>
                ((c - 48) * 8 + (d2 - 48)) :: l)
          | [] => some [(c - 48) * 8 + (d2 - 48)]
        else
          (decodeUEFuel f rest).map (fun l => (c - 48) :: l)
      | [] => some [c - 48]
    else
      (decodeUEFuel f rest).map (fun l => 92 :: c :: l)
  | f + 1, b :: rest => (decodeUEFuel f rest).map (fun l => b :: l)

/-- Decode with a step budget of the byte count: every step of the escape
table consumes at least one byte, so the budget is never exhausted. -/
def decodeUnicodeEscape (bs : List Nat) : Option (List Nat) :=
  decodeUEFuel bs.length bs

/-- Code points to characters; a code point outside the Unicode scalar range
(a lone surrogate, which `unicode_escape` can produce but a Lean `String`
cannot carry) is treated as unrepresentable. -/
def codePointsToChars (ns : List Nat) : Option (List Char) :=
  ns.mapM (fun n =>
    if n < 0xd800 || (0xe000 ≤ n && n ≤ 0x10ffff) then some (Char.ofNat n)
    else none)

/-- The guarded secondary decoding pass of `clean_text`:
`text.encode(\x27latin-1\x27).decode(\x27unicode_escape\x27)`, keeping the extracted
payload unchanged on any `UnicodeEncodeError`/`UnicodeDecodeError`. -/
def unicodeUnescape (payload : String) : String :=
  match encodeLatin1 payload.data with
  | none => payload
  | some bytes =>
    match decodeUnicodeEscape bytes with
    | none => payload
    | some cps =>
      match codePointsToChars cps with
      | none => payload
      | some cs => String.mk cs

/-- `ResultFormatter.clean_text`: a non-string argument is returned as its
`str()` conversion; a string undergoes the three replacements, then — if the
stringified-tuple pattern matches — payload extraction and the guarded
unicode-escape pass. -/
def clean_text (v : PyVal) : String :=
  match v with
  | .other r _ => r
  | .str text0 =>
    let text := cleanReplace text0
    match extractRawTuplePayload text with
    | none => text
    | some payload => unicodeUnescape payload

/-- C6: `format_task_result` prefers a present and truthy (non-empty) `raw`
field, else a present `result` field, else a present `output` field, else the
object's full string conversion, first match winning; and for a result object
exposing only a `raw` field equal to the text `(\x27raw\x27, \x27Hello\\nWorld\x27)` (with
a literal backslash-n), cleaning the normalized text yields `Hello`, a real
newline, `World`. -/
theorem c6_normalize_precedence_and_example :
    (∀ (tr : TaskResultObj) (v : PyVal), tr.raw = some v → pyTruthy v = true →
      format_task_result tr = pyStr v) ∧
    (∀ (tr : TaskResultObj) (v : PyVal),
      (tr.raw = none ∨ ∃ w, tr.raw = some w ∧ pyTruthy w = false) →
      tr.result = some v → format_task_result tr = pyStr v) ∧
    (∀ (tr : TaskResultObj) (v : PyVal),
      (tr.raw = none ∨ ∃ w, tr.raw = some w ∧ pyTruthy w = false) →
      tr.result = none → tr.output = some v → format_task_result tr = pyStr v) ∧
    (∀ tr : TaskResultObj,
      (tr.raw = none ∨ ∃ w, tr.raw = some w ∧ pyTruthy w = false) →
      tr.result = none → tr.output = none →
      format_task_result tr = tr.strConv) ∧
    clean_text (.str (format_task_result
      { raw := some (.str "(\x27raw\x27, \x27Hello\\nWorld\x27)"),
        strConv := "obj" }))
      = "Hello\x0aWorld" := by
  refine ⟨?_, ?_, ?_, ?_, by rfl⟩
  · intro tr v hv ht
    rw [format_task_result, hv]
    simp [ht]
  · intro tr v hraw hv
    rcases hraw with h | ⟨w, hw, hwf⟩
    · rw [format_task_result, h, format_task_result_rest, hv]
    · rw [format_task_result, hw]
      simp [hwf, format_task_result_rest, hv]
  · intro tr v hraw hres hout
    rcases hraw with h | ⟨w, hw, hwf⟩
    · rw [format_task_result, h, format_task_result_rest, hres, hout]
    · rw [format_task_result, hw]
      simp [hwf, format_task_result_rest, hres, hout]
  · intro tr hraw hres hout
    rcases hraw with h | ⟨w, hw, hwf⟩
    · rw [format_task_result, h, format_task_result_rest, hres, hout]
    · rw [format_task_result, hw]
      simp [hwf, format_task_result_rest, hres, hout]

/-- Witness for C6: each precedence clause at a concrete task result, plus
the concrete example clause. -/
theorem c6_normalize_precedence_and_example_witness :
    format_task_result { raw := some (.str "R"), result := some (.str "S"),
                         strConv := "obj" } = "R" ∧
    format_task_result { raw := some (.str ""), result := some (.str "S"),
                         strConv := "obj" } = "S" ∧
    format_task_result { output := some (.str "T"), strConv := "obj" } = "T" ∧
    format_task_result { strConv := "obj" } = "obj" ∧
    clean_text (.str (format_task_result
      { raw := some (.str "(\x27raw\x27, \x27Hello\\nWorld\x27)"),
        strConv := "obj" }))
      = "Hello\x0aWorld" := by
  refine ⟨?_, ?_, ?_, ?_, c6_normalize_precedence_and_example.2.2.2.2⟩
  · exact c6_normalize_precedence_and_example.1 _ (.str "R") rfl (by decide)
  · exact c6_normalize_precedence_and_example.2.1 _ (.str "S")
      (Or.inr ⟨.str "", rfl, by decide⟩) rfl
  · exact c6_normalize_precedence_and_example.2.2.1 _ (.str "T")
      (Or.inl rfl) rfl rfl
  · exact c6_normalize_precedence_and_example.2.2.2.1 _ (Or.inl rfl) rfl rfl

/-- C9: `clean_text` is total by construction (it is a Lean function); a
non-string input is returned as its string conversion, and when the
stringified-tuple pattern matches but the secondary unicode-escape pass fails
— at the Latin-1 encoding step or at the escape-decoding step — the
already-extracted payload is kept unchanged. -/
theorem c9_clean_total_and_failure_keeps_payload :
    (∀ (r : String) (t : Bool), clean_text (.other r t) = r) ∧
    (∀ s payload : String,
      extractRawTuplePayload (cleanReplace s) = some payload →
      encodeLatin1 payload.data = none →
      clean_text (.str s) = payload) ∧
    (∀ (s payload : String) (bytes : List Nat),
      extractRawTuplePayload (cleanReplace s) = some payload →
      encodeLatin1 payload.data = some bytes →
      decodeUnicodeEscape bytes = none →
      clean_text (.str s) = payload) := by
  refine ⟨fun r t => rfl, ?_, ?_⟩
  · intro s payload hex henc
    rw [clean_text]
    simp only [hex, unicodeUnescape, henc]
  · intro s payload bytes hex henc hdec
    rw [clean_text]
    simp only [hex, unicodeUnescape, henc, hdec]

/-- Witness for C9: a payload with characters above Latin-1 fails the encode
step and is kept; a payload ending in a lone backslash (after replacement)
fails the decode step and is kept. -/
theorem c9_clean_total_and_failure_keeps_payload_witness :
    clean_text (.other "42" true) = "42" ∧
    clean_text (.str "(\x27raw\x27, \x27Привет\x27)") = "Привет" ∧
    clean_text (.str "(\x27raw\x27, \x27a\\x\x27)") = "a\\x" := by
  refine ⟨c9_clean_total_and_failure_keeps_payload.1 "42" true, ?_, ?_⟩
  · exact c9_clean_total_and_failure_keeps_payload.2.1 _ _ (by rfl) (by rfl)
  · exact c9_clean_total_and_failure_keeps_payload.2.2 _ _ [97, 92, 120]
      (by rfl) (by rfl) (by rfl)

/-- Python `str.strip()` over the ASCII whitespace set. -/
def pyStrip (s : String) : String :=
  String.mk (((s.data.dropWhile (fun c =>
    c = ' ' || c = '\t' || c = '\x0a' || c = '\x0d' || c = '\x0b' || c = '\x0c')).reverse.dropWhile
      (fun c =>
    c = ' ' || c = '\t' || c = '\x0a' || c = '\x0d' || c = '\x0b' || c = '\x0c')).reverse)

/-- Agent name resolution in `ResultSaver._write_task_result`: default
`Неизвестно` when the `agent` attribute is absent or falsy or has no `name`;
a string name is stripped and has newlines collapsed to spaces; a non-string
name is rendered by the f-string as its `str()`. -/
def agentNameOf (tr : TaskResultObj) : String :=
  match tr.agent with
  | none => "Неизвестно"
  | some a =>
    match a.name with
    | none => "Неизвестно"
    | some (.str s) => pyReplace (pyStrip s) "\x0a" " "
    | some v => pyStr v

/-- Task name resolution in `ResultSaver._write_task_result`: the `name`
attribute when present and truthy, else `Неизвестно`. -/
def taskNameOf (tr : TaskResultObj) : String :=
  match tr.name with
  | some v => if pyTruthy v then pyStr v else "Неизвестно"
  | none => "Неизвестно"

/-- One block of the results document, as `_write_results_content` emits it:
either a numbered task section (index, agent name, task name, cleaned body)
or the single `Общий результат` section. -/
inductive MdSection where
  | taskSection : Nat → String → String → String → MdSection
  | overallSection : String → MdSection

/-- `ResultSaver._write_task_result` for task number `task_num`. -/
def write_task_result (task_num : Nat) (tr : TaskResultObj) : MdSection :=
  .taskSection task_num (agentNameOf tr) (taskNameOf tr)
    (clean_text (.str (format_task_result tr)))

/-- The `results` argument of `_write_results_content`: a string (iterable
but explicitly excluded from iteration), a list of task results, or a
non-iterable object carried with its `str()` conversion. -/
inductive ResultsVal where
  | pystr : String → ResultsVal
  | pylist : List TaskResultObj → ResultsVal
  | nonIter : String → ResultsVal

/-- The `enumerate(results, 1)` loop of `_write_results_content`. -/
def write_tasks_from (i : Nat) : List TaskResultObj → List MdSection
  | [] => []
  | tr :: rest => write_task_result i tr :: write_tasks_from (i + 1) rest

/-- `ResultSaver._write_results_content`: iterate non-string iterables into
numbered task sections; write strings and non-iterables as one
`Общий результат` section over `clean_text(str(results))`. -/
def write_results_content : ResultsVal → List MdSection
  | .pystr s => [.overallSection (clean_text (.str s))]
  | .pylist rs => write_tasks_from 1 rs
  | .nonIter r => [.overallSection (clean_text (.str r))]

/-- Index of a section (`0` for the overall section, which carries none). -/
def sectionIndex : MdSection → Nat
  | .taskSection i _ _ _ => i
  | .overallSection _ => 0

theorem write_tasks_from_map_index (rs : List TaskResultObj) :
    ∀ i, (write_tasks_from i rs).map sectionIndex = List.range' i rs.length := by
  induction rs with
  | nil => intro i; simp [write_tasks_from]
  | cons tr rest ih =>
    intro i
    simp [write_tasks_from, write_task_result, sectionIndex, ih, List.range']

/-- C10: a string `results` value is written as a single overall section over
its cleaned self — never iterated character by character — as is any
non-iterable value; a list of task results produces exactly one task section
per result, in input order, with 1-based indices. -/
theorem c10_string_not_iterated (s : String) (rs : List TaskResultObj)
    (r : String) :
    write_results_content (.pystr s) = [.overallSection (clean_text (.str s))] ∧
    (write_results_content (.pystr s)).length = 1 ∧
    (write_results_content (.pylist rs)).length = rs.length ∧
    (write_results_content (.pylist rs)).map sectionIndex
      = List.range' 1 rs.length ∧
    write_results_content (.pylist rs)
      = (rs.enumFrom 1).map (fun p => write_task_result p.1 p.2) ∧
    write_results_content (.nonIter r)
      = [.overallSection (clean_text (.str r))] := by
  refine ⟨rfl, rfl, ?_, write_tasks_from_map_index rs 1, ?_, rfl⟩
  · have h := write_tasks_from_map_index rs 1
    have := congrArg List.length h
    simpa [write_results_content] using this
  · show write_tasks_from 1 rs
      = (rs.enumFrom 1).map (fun p => write_task_result p.1 p.2)
    have : ∀ (l : List TaskResultObj) (i : Nat),
        write_tasks_from i l
          = (l.enumFrom i).map (fun p => write_task_result p.1 p.2) := by
      intro l
      induction l with
      | nil => intro i; simp [write_tasks_from]
      | cons tr rest ih =>
        intro i
        simp [write_tasks_from, List.enumFrom, ih (i + 1)]
    exact this rs 1

/-- Errors surfacing from crew accessors: a configuration-load failure, or a
Python-level error from using a non-mapping where a mapping is expected. -/
inductive CrewErr where
  | load : LoadErr → CrewErr
  | attributeError : String → CrewErr
  | keyError : String → CrewErr
  | typeError : String → CrewErr

/-- Python `d.get(k, default)`: the bound value or the default on a dict,
`AttributeError` on anything else. -/
def yGetD (y : Y) (k : String) (d : Y) : Except CrewErr Y :=
  match y with
  | .dict es => .ok ((assocFind es k).getD d)
  | _ => .error (.attributeError "get")

/-- A `crewai.Agent` as the `BaseCrew` variants construct one: configured
field values (arbitrary YAML values as Python would pass them through),
the fixed flags, and the bound LLM handle. -/
structure Agent where
  role : Y
  goal : Y
  backstory : Y
  verbose : Bool
  allow_delegation : Bool
  llm : String

/-- A `crewai.Task` as the `BaseCrew` variants construct one: description,
expected output, assigned agent, context tasks (`crewai` defaults the absent
`context` argument to no dependencies), output format. -/
inductive STask where
  | mk : Y → Y → Agent → List STask → String → STask

def STask.description : STask → Y
  | .mk d _ _ _ _ => d

def STask.expected_output : STask → Y
  | .mk _ e _ _ _ => e

def STask.agent : STask → Agent
  | .mk _ _ a _ _ => a

def STask.context : STask → List STask
  | .mk _ _ _ c _ => c

def STask.output_format : STask → String
  | .mk _ _ _ _ f => f

/-- The pure field-reading chain shared by every agent accessor of the
`BaseCrew` variants, applied to an already-loaded agents document `doc`:
`doc.get(entry_name, \x7b\x7d)`, then `.get` of `role`/`goal`/`backstory` with the
accessor's literal defaults, then `Agent(..., verbose=True,
allow_delegation=False, llm=self.llm)`. -/
def agentFromDoc (entry_name role_d goal_d backstory_d : String) (doc : Y)
    (llm : String) : Except CrewErr Agent :=
  match yGetD doc entry_name (.dict []) with
  | .error e => .error e
  | .ok entry_config =>
    match yGetD entry_config "role" (.str role_d) with
    | .error e => .error e
    | .ok role =>
      match yGetD entry_config "goal" (.str goal_d) with
      | .error e => .error e
      | .ok goal =>
        match yGetD entry_config "backstory" (.str backstory_d) with
        | .error e => .error e
        | .ok backstory => .ok ⟨role, goal, backstory, true, false, llm⟩

/-- The agent-accessor pattern shared by all nine agent accessors of
`StandardCrew` and `GamingCrew`: load the agents document through the
variant's `ConfigManager`, then read the entry with fallback defaults.  Each
concrete accessor below instantiates this with its file, entry and literal
defaults from the source. -/
def mkAgentAccessor (config_name entry_name role_d goal_d backstory_d : String)
    (fs : FS) (cm : ConfigManager) (llm : String) :
    Except CrewErr (Agent × ConfigManager) :=
  let o := load_config fs cm "agents" config_name
  match o.result with
  | .error e => .error (.load e)
  | .ok agents_config =>
    match agentFromDoc entry_name role_d goal_d backstory_d agents_config llm with
    | .error e => .error e
    | .ok a => .ok (a, o.cm)

/-- The task-accessor pattern shared by all thirteen task accessors of
`StandardCrew` and `GamingCrew` (none of which declares a `context`): load
the tasks document, read `description` with the accessor's default, construct
the assigned agent through the given agent accessor, read `expected_output`,
and build the task with `output_format=\x27raw\x27` and no context. -/
def mkTaskAccessor (config_name entry_name descr_d expected_d : String)
    (agentAcc : FS → ConfigManager → String → Except CrewErr (Agent × ConfigManager))
    (fs : FS) (cm : ConfigManager) (llm : String) :
    Except CrewErr (STask × ConfigManager) :=
  let o := load_config fs cm "tasks" config_name
  match o.result with
  | .error e => .error (.load e)
  | .ok tasks_config =>
    match yGetD tasks_config entry_name (.dict []) with
    | .error e => .error e
    | .ok entry_config =>
      match yGetD entry_config "description" (.str descr_d) with
      | .error e => .error e
      | .ok descr =>
        match agentAcc fs o.cm llm with
        | .error e => .error e
        | .ok (ag, cm2) =>
          match yGetD entry_config "expected_output" (.str expected_d) with
          | .error e => .error e
          | .ok expected => .ok (.mk descr expected ag [] "raw", cm2)

namespace StandardCrew

def lead_market_analyst := mkAgentAccessor "agents.yaml" "lead_market_analyst"
  "Ведущий аналитик рынка" "Проведение глубокого анализа рынка"
  "Опытный аналитик с 10+ лет опыта"

def chief_marketing_strategist := mkAgentAccessor "agents.yaml"
  "chief_marketing_strategist" "Главный маркетинговый стратег"
  "Разработка эффективных маркетинговых стратегий"
  "Стратег с опытом в крупных компаниях"

def creative_content_creator := mkAgentAccessor "agents.yaml"
  "creative_content_creator" "Креативный создатель контента"
  "Создание привлекательного контента" "Креативщик с богатым опытом"

def research_task := mkTaskAccessor "tasks.yaml" "research_task"
  "Проведите анализ рынка" "Детальный анализ рынка" lead_market_analyst

def project_understanding_task := mkTaskAccessor "tasks.yaml"
  "project_understanding_task" "Изучите проект" "Понимание проекта"
  lead_market_analyst

def marketing_strategy_task := mkTaskAccessor "tasks.yaml"
  "marketing_strategy_task" "Разработайте маркетинговую стратегию"
  "Маркетинговая стратегия" chief_marketing_strategist

def campaign_idea_task := mkTaskAccessor "tasks.yaml" "campaign_idea_task"
  "Создайте идеи кампаний" "Идеи кампаний" chief_marketing_strategist

def copy_creation_task := mkTaskAccessor "tasks.yaml" "copy_creation_task"
  "Создайте копирайтинг" "Копирайтинг" creative_content_creator

/-- `StandardCrew.get_tasks`: the five task accessors in source order,
threading the `ConfigManager` state. -/
def get_tasks (fs : FS) (cm : ConfigManager) (llm : String) :
    Except CrewErr (List STask × ConfigManager) :=
  match research_task fs cm llm with
  | .error e => .error e
  | .ok (t1, cm1) =>
    match project_understanding_task fs cm1 llm with
    | .error e => .error e
    | .ok (t2, cm2) =>
      match marketing_strategy_task fs cm2 llm with
      | .error e => .error e
      | .ok (t3, cm3) =>
        match campaign_idea_task fs cm3 llm with
        | .error e => .error e
        | .ok (t4, cm4) =>
          match copy_creation_task fs cm4 llm with
          | .error e => .error e
          | .ok (t5, cm5) => .ok ([t1, t2, t3, t4, t5], cm5)

end StandardCrew

namespace GamingCrew

def gaming_market_analyst := mkAgentAccessor "agents_gaming.yaml"
  "gaming_market_analyst" "Игровой аналитик рынка" "Анализ игрового рынка"
  "Эксперт по игровой индустрии"

def gaming_strategist := mkAgentAccessor "agents_gaming.yaml"
  "gaming_strategist" "Игровой стратег" "Разработка игровых стратегий"
  "Стратег игровой индустрии"

def content_creator_gaming := mkAgentAccessor "agents_gaming.yaml"
  "content_creator_gaming" "Создатель игрового контента"
  "Создание игрового контента" "Креативщик игровой индустрии"

def community_manager := mkAgentAccessor "agents_gaming.yaml"
  "community_manager" "Менеджер сообщества" "Управление игровым сообществом"
  "Эксперт по сообществам"

def legal_compliance_specialist := mkAgentAccessor "agents_gaming.yaml"
  "legal_compliance_specialist" "Юридический специалист"
  "Правовое соответствие" "Юрист игровой индустрии"

def technical_marketing_specialist := mkAgentAccessor "agents_gaming.yaml"
  "technical_marketing_specialist" "Технический маркетолог"
  "Технический маркетинг" "Технолог маркетинга"

def gaming_market_research_task := mkTaskAccessor "tasks_gaming.yaml"
  "gaming_market_research_task" "Исследуйте игровой рынок"
  "Анализ игрового рынка" gaming_market_analyst

def gaming_audience_analysis_task := mkTaskAccessor "tasks_gaming.yaml"
  "gaming_audience_analysis_task" "Проанализируйте аудиторию"
  "Анализ аудитории" gaming_market_analyst

def gaming_legal_risk_assessment_task := mkTaskAccessor "tasks_gaming.yaml"
  "gaming_legal_risk_assessment_task" "Оцените правовые риски"
  "Оценка рисков" legal_compliance_specialist

def gaming_community_strategy_task := mkTaskAccessor "tasks_gaming.yaml"
  "gaming_community_strategy_task" "Разработайте стратегию сообщества"
  "Стратегия сообщества" community_manager

def gaming_marketing_strategy_task := mkTaskAccessor "tasks_gaming.yaml"
  "gaming_marketing_strategy_task" "Разработайте игровую стратегию"
  "Игровая стратегия" gaming_strategist

def gaming_content_creation_task := mkTaskAccessor "tasks_gaming.yaml"
  "gaming_content_creation_task" "Создайте игровой контент"
  "Игровой контент" content_creator_gaming

def gaming_technical_positioning_task := mkTaskAccessor "tasks_gaming.yaml"
  "gaming_technical_positioning_task" "Позиционируйте технически"
  "Техническое позиционирование" technical_marketing_specialist

def gaming_campaign_execution_task := mkTaskAccessor "tasks_gaming.yaml"
  "gaming_campaign_execution_task" "Выполните игровую кампанию"
  "Исполнение кампании" gaming_strategist

/-- `GamingCrew.get_tasks`: the eight task accessors in source order. -/
def get_tasks (fs : FS) (cm : ConfigManager) (llm : String) :
    Except CrewErr (List STask × ConfigManager) :=
  match gaming_market_research_task fs cm llm with
  | .error e => .error e
  | .ok (t1, cm1) =>
    match gaming_audience_analysis_task fs cm1 llm with
    | .error e => .error e
    | .ok (t2, cm2) =>
      match gaming_legal_risk_assessment_task fs cm2 llm with
      | .error e => .error e
      | .ok (t3, cm3) =>
        match gaming_community_strategy_task fs cm3 llm with
        | .error e => .error e
        | .ok (t4, cm4) =>
          match gaming_marketing_strategy_task fs cm4 llm with
          | .error e => .error e
          | .ok (t5, cm5) =>
            match gaming_content_creation_task fs cm5 llm with
            | .error e => .error e
            | .ok (t6, cm6) =>
              match gaming_technical_positioning_task fs cm6 llm with
              | .error e => .error e
              | .ok (t7, cm7) =>
                match gaming_campaign_execution_task fs cm7 llm with
                | .error e => .error e
                | .ok (t8, cm8) =>
                  .ok ([t1, t2, t3, t4, t5, t6, t7, t8], cm8)

end GamingCrew

/-- Python `d[k]`: a present binding on a dict, `KeyError` on an absent key,
`TypeError` when indexing a non-mapping. -/
def pyIndex (y : Y) (k : String) : Except CrewErr Y :=
  match y with
  | .dict es =>
    match assocFind es k with
    | some v => .ok v
    | none => .error (.keyError k)
  | _ => .error (.typeError "not subscriptable")

/-- A `crewai.Agent` as the `@CrewBase` classes in `crew.py` construct one:
the whole config entry is handed to `crewai`, together with the tool list and
flags. -/
structure MAgent where
  config : Y
  tools : List String
  verbose : Bool
  memory : Bool
  llm : String

/-- A `crewai.Task` as the `@CrewBase` classes construct one: the config
entry, the assigned agent, and the declared context tasks. -/
inductive MTask where
  | mk : Y → MAgent → List MTask → MTask

def MTask.config : MTask → Y
  | .mk c _ _ => c

def MTask.agent : MTask → MAgent
  | .mk _ a _ => a

def MTask.context : MTask → List MTask
  | .mk _ _ c => c

/-- The agent-accessor pattern of the `@CrewBase` classes: index the loaded
agents document by the entry name and construct the agent with the accessor's
tool list, `verbose=True`, `memory=False` and the bound LLM. -/
def mkMpAgent (entry_name : String) (tools : List String) (acfg : Y)
    (llm : String) : Except CrewErr MAgent :=
  match pyIndex acfg entry_name with
  | .error e => .error e
  | .ok c => .ok ⟨c, tools, true, false, llm⟩

/-- Run a list of task accessors in order (the literal `context=[...]` list of
a `@task` method), failing on the first failure. -/
def runCtxAccessors
    (ctxAccs : List (Y → Y → String → Except CrewErr MTask))
    (acfg tcfg : Y) (llm : String) : Except CrewErr (List MTask) :=
  match ctxAccs with
  | [] => .ok []
  | f :: rest =>
    match f acfg tcfg llm with
    | .error e => .error e
    | .ok t =>
      match runCtxAccessors rest acfg tcfg llm with
      | .error e => .error e
      | .ok ts => .ok (t :: ts)

/-- The task-accessor pattern of the `@CrewBase` classes: index the loaded
tasks document by the entry name, construct the assigned agent, evaluate the
literal `context` accessor list (empty when the source passes no `context`),
and build the task. -/
def mkMpTask (entry_name : String)
    (agentAcc : Y → String → Except CrewErr MAgent)
    (ctxAccs : List (Y → Y → String → Except CrewErr MTask))
    (acfg tcfg : Y) (llm : String) : Except CrewErr MTask :=
  match pyIndex tcfg entry_name with
  | .error e => .error e
  | .ok c =>
    match agentAcc acfg llm with
    | .error e => .error e
    | .ok a =>
      match runCtxAccessors ctxAccs acfg tcfg llm with
      | .error e => .error e
      | .ok ctx => .ok (.mk c a ctx)

namespace MarketingPostsCrew

def lead_market_analyst := mkMpAgent "lead_market_analyst"
  ["SerperDevTool", "ScrapeWebsiteTool"]

def chief_marketing_strategist := mkMpAgent "chief_marketing_strategist"
  ["SerperDevTool", "ScrapeWebsiteTool"]

def creative_content_creator := mkMpAgent "creative_content_creator" []

def research_task := mkMpTask "research_task"
  (fun acfg llm => lead_market_analyst acfg llm) []

def project_understanding_task := mkMpTask "project_understanding_task"
  (fun acfg llm => chief_marketing_strategist acfg llm) []

def marketing_strategy_task := mkMpTask "marketing_strategy_task"
  (fun acfg llm => chief_marketing_strategist acfg llm) []

def campaign_idea_task := mkMpTask "campaign_idea_task"
  (fun acfg llm => creative_content_creator acfg llm) []

def copy_creation_task := mkMpTask "copy_creation_task"
  (fun acfg llm => creative_content_creator acfg llm)
  [fun acfg tcfg llm => marketing_strategy_task acfg tcfg llm,
   fun acfg tcfg llm => campaign_idea_task acfg tcfg llm]

/-- The `@task`-collected task list of `MarketingPostsCrew`, in declaration
order. -/
def tasks (acfg tcfg : Y) (llm : String) : Except CrewErr (List MTask) :=
  match research_task acfg tcfg llm with
  | .error e => .error e
  | .ok t1 =>
    match project_understanding_task acfg tcfg llm with
    | .error e => .error e
    | .ok t2 =>
      match marketing_strategy_task acfg tcfg llm with
      | .error e => .error e
      | .ok t3 =>
        match campaign_idea_task acfg tcfg llm with
        | .error e => .error e
        | .ok t4 =>
          match copy_creation_task acfg tcfg llm with
          | .error e => .error e
          | .ok t5 => .ok [t1, t2, t3, t4, t5]

end MarketingPostsCrew

namespace GamingMarketingPostsCrew

def gaming_market_analyst := mkMpAgent "gaming_market_analyst"
  ["SerperDevTool", "ScrapeWebsiteTool"]

def gaming_strategist := mkMpAgent "gaming_strategist"
  ["SerperDevTool", "ScrapeWebsiteTool"]

def content_creator_gaming := mkMpAgent "content_creator_gaming" []

def community_manager := mkMpAgent "community_manager"
  ["SerperDevTool", "ScrapeWebsiteTool"]

def legal_compliance_specialist := mkMpAgent "legal_compliance_specialist"
  ["SerperDevTool", "ScrapeWebsiteTool"]

def technical_marketing_specialist := mkMpAgent "technical_marketing_specialist"
  []

def gaming_market_research_task := mkMpTask "gaming_market_research_task"
  (fun acfg llm => gaming_market_analyst acfg llm) []

def gaming_audience_analysis_task := mkMpTask "gaming_audience_analysis_task"
  (fun acfg llm => gaming_strategist acfg llm) []

def gaming_marketing_strategy_task := mkMpTask "gaming_marketing_strategy_task"
  (fun acfg llm => gaming_strategist acfg llm) []

def gaming_content_creation_task := mkMpTask "gaming_content_creation_task"
  (fun acfg llm => content_creator_gaming acfg llm) []

def gaming_technical_positioning_task := mkMpTask
  "gaming_technical_positioning_task"
  (fun acfg llm => content_creator_gaming acfg llm)
  [fun acfg tcfg llm => gaming_marketing_strategy_task acfg tcfg llm,
   fun acfg tcfg llm => gaming_content_creation_task acfg tcfg llm]

def gaming_legal_risk_assessment_task := mkMpTask
  "gaming_legal_risk_assessment_task"
  (fun acfg llm => legal_compliance_specialist acfg llm) []

def gaming_community_strategy_task := mkMpTask "gaming_community_strategy_task"
  (fun acfg llm => community_manager acfg llm) []

def gaming_campaign_execution_task := mkMpTask "gaming_campaign_execution_task"
  (fun acfg llm => technical_marketing_specialist acfg llm)
  [fun acfg tcfg llm => gaming_marketing_strategy_task acfg tcfg llm,
   fun acfg tcfg llm => gaming_legal_risk_assessment_task acfg tcfg llm,
   fun acfg tcfg llm => gaming_community_strategy_task acfg tcfg llm]

/-- The `@task`-collected task list of `GamingMarketingPostsCrew`, in
declaration order. -/
def tasks (acfg tcfg : Y) (llm : String) : Except CrewErr (List MTask) :=
  match gaming_market_research_task acfg tcfg llm with
  | .error e => .error e
  | .ok t1 =>
    match gaming_audience_analysis_task acfg tcfg llm with
    | .error e => .error e
    | .ok t2 =>
      match gaming_marketing_strategy_task acfg tcfg llm with
      | .error e => .error e
      | .ok t3 =>
        match gaming_content_creation_task acfg tcfg llm with
        | .error e => .error e
        | .ok t4 =>
          match gaming_technical_positioning_task acfg tcfg llm with
          | .error e => .error e
          | .ok t5 =>
            match gaming_legal_risk_assessment_task acfg tcfg llm with
            | .error e => .error e
            | .ok t6 =>
              match gaming_community_strategy_task acfg tcfg llm with
              | .error e => .error e
              | .ok t7 =>
                match gaming_campaign_execution_task acfg tcfg llm with
                | .error e => .error e
                | .ok t8 => .ok [t1, t2, t3, t4, t5, t6, t7, t8]

end GamingMarketingPostsCrew

/-- No `BaseCrew` task accessor declares a context: every task it constructs
has an empty dependency list. -/
theorem mkTaskAccessor_context_nil
    (n e d ed : String)
    (A : FS → ConfigManager → String → Except CrewErr (Agent × ConfigManager))
    (fs : FS) (cm : ConfigManager) (llm : String) (t : STask)
    (cm2 : ConfigManager)
    (h : mkTaskAccessor n e d ed A fs cm llm = .ok (t, cm2)) :
    t.context = [] := by
  unfold mkTaskAccessor at h
  simp only [] at h
  cases h1 : (load_config fs cm "tasks" n).result with
  | error e1 => simp only [h1] at h; cases h
  | ok tasks_config =>
    simp only [h1] at h
    cases h2 : yGetD tasks_config e (.dict []) with
    | error e2 => simp only [h2] at h; cases h
    | ok entry_config =>
      simp only [h2] at h
      cases h3 : yGetD entry_config "description" (.str d) with
      | error e3 => simp only [h3] at h; cases h
      | ok descr =>
        simp only [h3] at h
        cases h4 : A fs (load_config fs cm "tasks" n).cm llm with
        | error e4 => simp only [h4] at h; cases h
        | ok p =>
          obtain ⟨ag, cmA⟩ := p
          simp only [h4] at h
          cases h5 : yGetD entry_config "expected_output" (.str ed) with
          | error e5 => simp only [h5] at h; cases h
          | ok expected =>
            simp only [h5] at h
            have := Except.ok.inj h
            have ht : STask.mk descr expected ag [] "raw" = t :=
              congrArg Prod.fst this
            rw [← ht]
            rfl

/-- Decomposition of a successful `@CrewBase` task accessor. -/
theorem mkMpTask_ok_decomp (n : String)
    (A : Y → String → Except CrewErr MAgent)
    (ctxs : List (Y → Y → String → Except CrewErr MTask))
    (acfg tcfg : Y) (llm : String) (t : MTask)
    (h : mkMpTask n A ctxs acfg tcfg llm = .ok t) :
    ∃ c a ctx, pyIndex tcfg n = .ok c ∧ A acfg llm = .ok a ∧
      runCtxAccessors ctxs acfg tcfg llm = .ok ctx ∧ t = .mk c a ctx := by
  unfold mkMpTask at h
  cases h1 : pyIndex tcfg n with
  | error e1 => rw [h1] at h; cases h
  | ok c =>
    rw [h1] at h
    cases h2 : A acfg llm with
    | error e2 => rw [h2] at h; cases h
    | ok a =>
      rw [h2] at h
      cases h3 : runCtxAccessors ctxs acfg tcfg llm with
      | error e3 => rw [h3] at h; cases h
      | ok ctx =>
        rw [h3] at h
        exact ⟨c, a, ctx, rfl, rfl, rfl, (Except.ok.inj h).symm⟩

/-- The structural DAG-order invariant on a declared task sequence: every
context entry of the task at index `i` equals some task at a strictly
smaller index. -/
def stasksDagOrdered (ts : List STask) : Prop :=
  ∀ (i : Nat) (hi : i < ts.length), ∀ c ∈ (ts.get ⟨i, hi⟩).context,
    ∃ (j : Nat) (hj : j < ts.length), j < i ∧ ts.get ⟨j, hj⟩ = c

/-- The same invariant for the `@CrewBase` task values. -/
def mtasksDagOrdered (ts : List MTask) : Prop :=
  ∀ (i : Nat) (hi : i < ts.length), ∀ c ∈ (ts.get ⟨i, hi⟩).context,
    ∃ (j : Nat) (hj : j < ts.length), j < i ∧ ts.get ⟨j, hj⟩ = c

theorem stasksDagOrdered_of_no_context (ts : List STask)
    (h : ∀ t ∈ ts, t.context = []) : stasksDagOrdered ts := by
  intro i hi c hc
  rw [h _ (ts.get_mem i hi)] at hc
  cases hc

/-- Every task in a successful `StandardCrew.get_tasks` run has an empty
context. -/
theorem std_get_tasks_no_context (fs : FS) (cm : ConfigManager) (llm : String)
    (ts : List STask) (cmF : ConfigManager)
    (h : StandardCrew.get_tasks fs cm llm = .ok (ts, cmF)) :
    ∀ t ∈ ts, t.context = [] := by
  unfold StandardCrew.get_tasks at h
  cases h1 : StandardCrew.research_task fs cm llm with
  | error e => simp only [h1] at h; cases h
  | ok p1 =>
    obtain ⟨t1, cm1⟩ := p1
    simp only [h1] at h
    cases h2 : StandardCrew.project_understanding_task fs cm1 llm with
    | error e => simp only [h2] at h; cases h
    | ok p2 =>
      obtain ⟨t2, cm2⟩ := p2
      simp only [h2] at h
      cases h3 : StandardCrew.marketing_strategy_task fs cm2 llm with
      | error e => simp only [h3] at h; cases h
      | ok p3 =>
        obtain ⟨t3, cm3⟩ := p3
        simp only [h3] at h
        cases h4 : StandardCrew.campaign_idea_task fs cm3 llm with
        | error e => simp only [h4] at h; cases h
        | ok p4 =>
          obtain ⟨t4, cm4⟩ := p4
          simp only [h4] at h
          cases h5 : StandardCrew.copy_creation_task fs cm4 llm with
          | error e => simp only [h5] at h; cases h
          | ok p5 =>
            obtain ⟨t5, cm5⟩ := p5
            simp only [h5] at h
            have hts : [t1, t2, t3, t4, t5] = ts :=
              congrArg Prod.fst (Except.ok.inj h)
            rw [← hts]
            intro t ht
            simp only [List.mem_cons, List.not_mem_nil, or_false] at ht
            rcases ht with rfl | rfl | rfl | rfl | rfl
            · exact mkTaskAccessor_context_nil _ _ _ _ _ _ _ _ _ _ h1
            · exact mkTaskAccessor_context_nil _ _ _ _ _ _ _ _ _ _ h2
            · exact mkTaskAccessor_context_nil _ _ _ _ _ _ _ _ _ _ h3
            · exact mkTaskAccessor_context_nil _ _ _ _ _ _ _ _ _ _ h4
            · exact mkTaskAccessor_context_nil _ _ _ _ _ _ _ _ _ _ h5

/-- Every task in a successful `GamingCrew.get_tasks` run has an empty
context. -/
theorem gaming_get_tasks_no_context (fs : FS) (cm : ConfigManager)
    (llm : String) (ts : List STask) (cmF : ConfigManager)
    (h : GamingCrew.get_tasks fs cm llm = .ok (ts, cmF)) :
    ∀ t ∈ ts, t.context = [] := by
  unfold GamingCrew.get_tasks at h
  cases h1 : GamingCrew.gaming_market_research_task fs cm llm with
  | error e => simp only [h1] at h; cases h
  | ok p1 =>
    obtain ⟨t1, cm1⟩ := p1
    simp only [h1] at h
    cases h2 : GamingCrew.gaming_audience_analysis_task fs cm1 llm with
    | error e => simp only [h2] at h; cases h
    | ok p2 =>
      obtain ⟨t2, cm2⟩ := p2
      simp only [h2] at h
      cases h3 : GamingCrew.gaming_legal_risk_assessment_task fs cm2 llm with
      | error e => simp only [h3] at h; cases h
      | ok p3 =>
        obtain ⟨t3, cm3⟩ := p3
        simp only [h3] at h
        cases h4 : GamingCrew.gaming_community_strategy_task fs cm3 llm with
        | error e => simp only [h4] at h; cases h
        | ok p4 =>
          obtain ⟨t4, cm4⟩ := p4
          simp only [h4] at h
          cases h5 : GamingCrew.gaming_marketing_strategy_task fs cm4 llm with
          | error e => simp only [h5] at h; cases h
          | ok p5 =>
            obtain ⟨t5, cm5⟩ := p5
            simp only [h5] at h
            cases h6 : GamingCrew.gaming_content_creation_task fs cm5 llm with
            | error e => simp only [h6] at h; cases h
            | ok p6 =>
              obtain ⟨t6, cm6⟩ := p6
              simp only [h6] at h
              cases h7 : GamingCrew.gaming_technical_positioning_task fs cm6 llm with
              | error e => simp only [h7] at h; cases h
              | ok p7 =>
                obtain ⟨t7, cm7⟩ := p7
                simp only [h7] at h
                cases h8 : GamingCrew.gaming_campaign_execution_task fs cm7 llm with
                | error e => simp only [h8] at h; cases h
                | ok p8 =>
                  obtain ⟨t8, cm8⟩ := p8
                  simp only [h8] at h
                  have hts : [t1, t2, t3, t4, t5, t6, t7, t8] = ts :=
                    congrArg Prod.fst (Except.ok.inj h)
                  rw [← hts]
                  intro t ht
                  simp only [List.mem_cons, List.not_mem_nil, or_false] at ht
                  rcases ht with rfl | rfl | rfl | rfl | rfl | rfl | rfl | rfl
                  · exact mkTaskAccessor_context_nil _ _ _ _ _ _ _ _ _ _ h1
                  · exact mkTaskAccessor_context_nil _ _ _ _ _ _ _ _ _ _ h2
                  · exact mkTaskAccessor_context_nil _ _ _ _ _ _ _ _ _ _ h3
                  · exact mkTaskAccessor_context_nil _ _ _ _ _ _ _ _ _ _ h4
                  · exact mkTaskAccessor_context_nil _ _ _ _ _ _ _ _ _ _ h5
                  · exact mkTaskAccessor_context_nil _ _ _ _ _ _ _ _ _ _ h6
                  · exact mkTaskAccessor_context_nil _ _ _ _ _ _ _ _ _ _ h7
                  · exact mkTaskAccessor_context_nil _ _ _ _ _ _ _ _ _ _ h8

/-- Shape of a successful `MarketingPostsCrew` task list: five tasks in
declaration order; the first four without context; `copy_creation` with
context `[marketing_strategy, campaign_idea]`; agents as the source assigns
them (`project_understanding` to the strategist, `campaign_idea` to the
creator). -/
theorem mp_tasks_shape (acfg tcfg : Y) (llm : String) (ts : List MTask)
    (h : MarketingPostsCrew.tasks acfg tcfg llm = .ok ts) :
    ∃ t1 t2 t3 t4 t5, ts = [t1, t2, t3, t4, t5] ∧
      t1.context = [] ∧ t2.context = [] ∧ t3.context = [] ∧ t4.context = [] ∧
      t5.context = [t3, t4] ∧
      (∃ aA, MarketingPostsCrew.lead_market_analyst acfg llm = .ok aA ∧
        t1.agent = aA) ∧
      (∃ aS, MarketingPostsCrew.chief_marketing_strategist acfg llm = .ok aS ∧
        t2.agent = aS ∧ t3.agent = aS) ∧
      (∃ aC, MarketingPostsCrew.creative_content_creator acfg llm = .ok aC ∧
        t4.agent = aC ∧ t5.agent = aC) := by
  unfold MarketingPostsCrew.tasks at h
  cases h1 : MarketingPostsCrew.research_task acfg tcfg llm with
  | error e => simp only [h1] at h; cases h
  | ok t1 =>
    simp only [h1] at h
    cases h2 : MarketingPostsCrew.project_understanding_task acfg tcfg llm with
    | error e => simp only [h2] at h; cases h
    | ok t2 =>
      simp only [h2] at h
      cases h3 : MarketingPostsCrew.marketing_strategy_task acfg tcfg llm with
      | error e => simp only [h3] at h; cases h
      | ok t3 =>
        simp only [h3] at h
        cases h4 : MarketingPostsCrew.campaign_idea_task acfg tcfg llm with
        | error e => simp only [h4] at h; cases h
        | ok t4 =>
          simp only [h4] at h
          cases h5 : MarketingPostsCrew.copy_creation_task acfg tcfg llm with
          | error e => simp only [h5] at h; cases h
          | ok t5 =>
            simp only [h5] at h
            have hts : [t1, t2, t3, t4, t5] = ts := Except.ok.inj h
            obtain ⟨c1, a1, ctx1, hi1, ha1, hc1, ht1⟩ :=
              mkMpTask_ok_decomp _ _ _ _ _ _ _ h1
            obtain ⟨c2, a2, ctx2, hi2, ha2, hc2, ht2⟩ :=
              mkMpTask_ok_decomp _ _ _ _ _ _ _ h2
            obtain ⟨c3, a3, ctx3, hi3, ha3, hc3, ht3⟩ :=
              mkMpTask_ok_decomp _ _ _ _ _ _ _ h3
            obtain ⟨c4, a4, ctx4, hi4, ha4, hc4, ht4⟩ :=
              mkMpTask_ok_decomp _ _ _ _ _ _ _ h4
            obtain ⟨c5, a5, ctx5, hi5, ha5, hc5, ht5⟩ :=
              mkMpTask_ok_decomp _ _ _ _ _ _ _ h5
            unfold runCtxAccessors at hc1 hc2 hc3 hc4
            have hctx1 : ctx1 = [] := (Except.ok.inj hc1).symm
            have hctx2 : ctx2 = [] := (Except.ok.inj hc2).symm
            have hctx3 : ctx3 = [] := (Except.ok.inj hc3).symm
            have hctx4 : ctx4 = [] := (Except.ok.inj hc4).symm
            unfold runCtxAccessors at hc5
            simp only [h3] at hc5
            unfold runCtxAccessors at hc5
            simp only [h4] at hc5
            unfold runCtxAccessors at hc5
            have hctx5 : ctx5 = [t3, t4] := (Except.ok.inj hc5).symm
            refine ⟨t1, t2, t3, t4, t5, hts.symm, ?_, ?_, ?_, ?_, ?_, ?_, ?_, ?_⟩
            · rw [ht1, hctx1]; rfl
            · rw [ht2, hctx2]; rfl
            · rw [ht3, hctx3]; rfl
            · rw [ht4, hctx4]; rfl
            · rw [ht5, hctx5]; rfl
            · exact ⟨a1, ha1, by rw [ht1]; rfl⟩
            · refine ⟨a2, ha2, by rw [ht2]; rfl, ?_⟩
              rw [ha2] at ha3
              rw [ht3, Except.ok.inj ha3]
              rfl
            · refine ⟨a4, ha4, by rw [ht4]; rfl, ?_⟩
              rw [ha4] at ha5
              rw [ht5, Except.ok.inj ha5]
              rfl

/-- Shape of a successful `GamingMarketingPostsCrew` task list: eight tasks
in declaration order, with `technical_positioning` depending on the earlier
strategy and content tasks and `campaign_execution` on the earlier strategy,
legal and community tasks. -/
theorem gmp_tasks_shape (acfg tcfg : Y) (llm : String) (ts : List MTask)
    (h : GamingMarketingPostsCrew.tasks acfg tcfg llm = .ok ts) :
    ∃ t1 t2 t3 t4 t5 t6 t7 t8, ts = [t1, t2, t3, t4, t5, t6, t7, t8] ∧
      t1.context = [] ∧ t2.context = [] ∧ t3.context = [] ∧ t4.context = [] ∧
      t5.context = [t3, t4] ∧ t6.context = [] ∧ t7.context = [] ∧
      t8.context = [t3, t6, t7] := by
  unfold GamingMarketingPostsCrew.tasks at h
  cases h1 : GamingMarketingPostsCrew.gaming_market_research_task acfg tcfg llm with
  | error e => simp only [h1] at h; cases h
  | ok t1 =>
    simp only [h1] at h
    cases h2 : GamingMarketingPostsCrew.gaming_audience_analysis_task acfg tcfg llm with
    | error e => simp only [h2] at h; cases h
    | ok t2 =>
      simp only [h2] at h
      cases h3 : GamingMarketingPostsCrew.gaming_marketing_strategy_task acfg tcfg llm with
      | error e => simp only [h3] at h; cases h
      | ok t3 =>
        simp only [h3] at h
        cases h4 : GamingMarketingPostsCrew.gaming_content_creation_task acfg tcfg llm with
        | error e => simp only [h4] at h; cases h
        | ok t4 =>
          simp only [h4] at h
          cases h5 : GamingMarketingPostsCrew.gaming_technical_positioning_task acfg tcfg llm with
          | error e => simp only [h5] at h; cases h
          | ok t5 =>
            simp only [h5] at h
            cases h6 : GamingMarketingPostsCrew.gaming_legal_risk_assessment_task acfg tcfg llm with
            | error e => simp only [h6] at h; cases h
            | ok t6 =>
              simp only [h6] at h
              cases h7 : GamingMarketingPostsCrew.gaming_community_strategy_task acfg tcfg llm with
              | error e => simp only [h7] at h; cases h
              | ok t7 =>
                simp only [h7] at h
                cases h8 : GamingMarketingPostsCrew.gaming_campaign_execution_task acfg tcfg llm with
                | error e => simp only [h8] at h; cases h
                | ok t8 =>
                  simp only [h8] at h
                  have hts : [t1, t2, t3, t4, t5, t6, t7, t8] = ts :=
                    Except.ok.inj h
                  obtain ⟨c1, a1, ctx1, hi1, ha1, hc1, ht1⟩ :=
                    mkMpTask_ok_decomp _ _ _ _ _ _ _ h1
                  obtain ⟨c2, a2, ctx2, hi2, ha2, hc2, ht2⟩ :=
                    mkMpTask_ok_decomp _ _ _ _ _ _ _ h2
                  obtain ⟨c3, a3, ctx3, hi3, ha3, hc3, ht3⟩ :=
                    mkMpTask_ok_decomp _ _ _ _ _ _ _ h3
                  obtain ⟨c4, a4, ctx4, hi4, ha4, hc4, ht4⟩ :=
                    mkMpTask_ok_decomp _ _ _ _ _ _ _ h4
                  obtain ⟨c5, a5, ctx5, hi5, ha5, hc5, ht5⟩ :=
                    mkMpTask_ok_decomp _ _ _ _ _ _ _ h5
                  obtain ⟨c6, a6, ctx6, hi6, ha6, hc6, ht6⟩ :=
                    mkMpTask_ok_decomp _ _ _ _ _ _ _ h6
                  obtain ⟨c7, a7, ctx7, hi7, ha7, hc7, ht7⟩ :=
                    mkMpTask_ok_decomp _ _ _ _ _ _ _ h7
                  obtain ⟨c8, a8, ctx8, hi8, ha8, hc8, ht8⟩ :=
                    mkMpTask_ok_decomp _ _ _ _ _ _ _ h8
                  unfold runCtxAccessors at hc1 hc2 hc3 hc4 hc6 hc7
                  have hctx1 : ctx1 = [] := (Except.ok.inj hc1).symm
                  have hctx2 : ctx2 = [] := (Except.ok.inj hc2).symm
                  have hctx3 : ctx3 = [] := (Except.ok.inj hc3).symm
                  have hctx4 : ctx4 = [] := (Except.ok.inj hc4).symm
                  have hctx6 : ctx6 = [] := (Except.ok.inj hc6).symm
                  have hctx7 : ctx7 = [] := (Except.ok.inj hc7).symm
                  unfold runCtxAccessors at hc5
                  simp only [h3] at hc5
                  unfold runCtxAccessors at hc5
                  simp only [h4] at hc5
                  unfold runCtxAccessors at hc5
                  have hctx5 : ctx5 = [t3, t4] := (Except.ok.inj hc5).symm
                  unfold runCtxAccessors at hc8
                  simp only [h3] at hc8
                  unfold runCtxAccessors at hc8
                  simp only [h6] at hc8
                  unfold runCtxAccessors at hc8
                  simp only [h7] at hc8
                  unfold runCtxAccessors at hc8
                  have hctx8 : ctx8 = [t3, t6, t7] := (Except.ok.inj hc8).symm
                  refine ⟨t1, t2, t3, t4, t5, t6, t7, t8, hts.symm,
                    ?_, ?_, ?_, ?_, ?_, ?_, ?_, ?_⟩
                  · rw [ht1, hctx1]; rfl
                  · rw [ht2, hctx2]; rfl
                  · rw [ht3, hctx3]; rfl
                  · rw [ht4, hctx4]; rfl
                  · rw [ht5, hctx5]; rfl
                  · rw [ht6, hctx6]; rfl
                  · rw [ht7, hctx7]; rfl
                  · rw [ht8, hctx8]; rfl

/-- C3: in every task sequence produced by the variants' task catalogs —
`StandardCrew.get_tasks`, `GamingCrew.get_tasks`, and the `@CrewBase` task
lists of `crew.py` — every task named in a task's context appears at a
strictly earlier index in that same sequence. -/
theorem c3_dependency_declared_earlier :
    (∀ (fs : FS) (cm : ConfigManager) (llm : String) (ts : List STask)
        (cmF : ConfigManager),
      StandardCrew.get_tasks fs cm llm = .ok (ts, cmF) → stasksDagOrdered ts) ∧
    (∀ (fs : FS) (cm : ConfigManager) (llm : String) (ts : List STask)
        (cmF : ConfigManager),
      GamingCrew.get_tasks fs cm llm = .ok (ts, cmF) → stasksDagOrdered ts) ∧
    (∀ (acfg tcfg : Y) (llm : String) (ts : List MTask),
      MarketingPostsCrew.tasks acfg tcfg llm = .ok ts → mtasksDagOrdered ts) ∧
    (∀ (acfg tcfg : Y) (llm : String) (ts : List MTask),
      GamingMarketingPostsCrew.tasks acfg tcfg llm = .ok ts →
        mtasksDagOrdered ts) := by
  refine ⟨?_, ?_, ?_, ?_⟩
  · intro fs cm llm ts cmF h
    exact stasksDagOrdered_of_no_context ts (std_get_tasks_no_context _ _ _ _ _ h)
  · intro fs cm llm ts cmF h
    exact stasksDagOrdered_of_no_context ts
      (gaming_get_tasks_no_context _ _ _ _ _ h)
  · intro acfg tcfg llm ts h
    obtain ⟨t1, t2, t3, t4, t5, rfl, hc1, hc2, hc3, hc4, hc5, _, _, _⟩ :=
      mp_tasks_shape _ _ _ _ h
    intro i hi c hc
    rcases i with _ | _ | _ | _ | _ | i
    · rw [show ([t1, t2, t3, t4, t5].get ⟨0, hi⟩) = t1 from rfl, hc1] at hc
      cases hc
    · rw [show ([t1, t2, t3, t4, t5].get ⟨1, hi⟩) = t2 from rfl, hc2] at hc
      cases hc
    · rw [show ([t1, t2, t3, t4, t5].get ⟨2, hi⟩) = t3 from rfl, hc3] at hc
      cases hc
    · rw [show ([t1, t2, t3, t4, t5].get ⟨3, hi⟩) = t4 from rfl, hc4] at hc
      cases hc
    · rw [show ([t1, t2, t3, t4, t5].get ⟨4, hi⟩) = t5 from rfl, hc5] at hc
      simp only [List.mem_cons, List.not_mem_nil, or_false] at hc
      rcases hc with rfl | rfl
      · exact ⟨2, by simp, by omega, rfl⟩
      · exact ⟨3, by simp, by omega, rfl⟩
    · exact absurd hi (by simp)
  · intro acfg tcfg llm ts h
    obtain ⟨t1, t2, t3, t4, t5, t6, t7, t8, rfl,
      hc1, hc2, hc3, hc4, hc5, hc6, hc7, hc8⟩ := gmp_tasks_shape _ _ _ _ h
    intro i hi c hc
    rcases i with _ | _ | _ | _ | _ | _ | _ | _ | i
    · rw [show ([t1, t2, t3, t4, t5, t6, t7, t8].get ⟨0, hi⟩) = t1 from rfl,
        hc1] at hc
      cases hc
    · rw [show ([t1, t2, t3, t4, t5, t6, t7, t8].get ⟨1, hi⟩) = t2 from rfl,
        hc2] at hc
      cases hc
    · rw [show ([t1, t2, t3, t4, t5, t6, t7, t8].get ⟨2, hi⟩) = t3 from rfl,
        hc3] at hc
      cases hc
    · rw [show ([t1, t2, t3, t4, t5, t6, t7, t8].get ⟨3, hi⟩) = t4 from rfl,
        hc4] at hc
      cases hc
    · rw [show ([t1, t2, t3, t4, t5, t6, t7, t8].get ⟨4, hi⟩) = t5 from rfl,
        hc5] at hc
      simp only [List.mem_cons, List.not_mem_nil, or_false] at hc
      rcases hc with rfl | rfl
      · exact ⟨2, by simp, by omega, rfl⟩
      · exact ⟨3, by simp, by omega, rfl⟩
    · rw [show ([t1, t2, t3, t4, t5, t6, t7, t8].get ⟨5, hi⟩) = t6 from rfl,
        hc6] at hc
      cases hc
    · rw [show ([t1, t2, t3, t4, t5, t6, t7, t8].get ⟨6, hi⟩) = t7 from rfl,
        hc7] at hc
      cases hc
    · rw [show ([t1, t2, t3, t4, t5, t6, t7, t8].get ⟨7, hi⟩) = t8 from rfl,
        hc8] at hc
      simp only [List.mem_cons, List.not_mem_nil, or_false] at hc
      rcases hc with rfl | rfl | rfl
      · exact ⟨2, by simp, by omega, rfl⟩
      · exact ⟨5, by simp, by omega, rfl⟩
      · exact ⟨6, by simp, by omega, rfl⟩
    · exact absurd hi (by simp)

/-- One manager state extends another: every cached binding is preserved. -/
def CacheExtends (cm cm2 : ConfigManager) : Prop :=
  ∀ k v, assocFind cm.cache k = some v → assocFind cm2.cache k = some v

theorem cacheExtends_refl (cm : ConfigManager) : CacheExtends cm cm :=
  fun _ _ h => h

theorem cacheExtends_trans {a b c : ConfigManager}
    (h1 : CacheExtends a b) (h2 : CacheExtends b c) : CacheExtends a c :=
  fun k v h => h2 k v (h1 k v h)

/-- `load_config` only ever adds cache entries, never removes or overwrites
one. -/
theorem load_config_extends (fs : FS) (cm : ConfigManager) (t n : String) :
    CacheExtends cm (load_config fs cm t n).cm := by
  intro k v hk
  unfold load_config
  cases h1 : assocFind cm.cache (t ++ "_" ++ n) with
  | some c => simpa [h1] using hk
  | none =>
    cases h2 : fs (cm.base_path ++ "/" ++ n) with
    | none => simpa [h1, h2] using hk
    | some pr =>
      have hne : k ≠ t ++ "_" ++ n := by
        intro hkey
        rw [hkey, h1] at hk
        cases hk
      cases pr with
      | error m => simpa [h1, h2] using hk
      | ok cfg =>
        cases h3 : validatorFor t with
        | none =>
          simp only [h1, h2, h3]
          rw [assocFind_pyDictSet_other _ _ _ _ hne]
          exact hk
        | some validator =>
          cases h4 : validator cfg with
          | some e => simpa [h1, h2, h3, h4] using hk
          | none =>
            simp only [h1, h2, h3, h4]
            rw [assocFind_pyDictSet_other _ _ _ _ hne]
            exact hk

/-- A successful `BaseCrew` agent accessor run extends the cache, and replays
identically from any later state: the agents document is cached, so the same
agent value is recomputed and the state is left unchanged. -/
theorem mkAgentAccessor_spec (n e r g b : String) (fs : FS)
    (cm : ConfigManager) (llm : String) (a : Agent) (cm2 : ConfigManager)
    (h : mkAgentAccessor n e r g b fs cm llm = .ok (a, cm2)) :
    CacheExtends cm cm2 ∧
    ∀ cm3, CacheExtends cm2 cm3 →
      mkAgentAccessor n e r g b fs cm3 llm = .ok (a, cm3) := by
  unfold mkAgentAccessor at h
  simp only [] at h
  cases h1 : (load_config fs cm "agents" n).result with
  | error e1 => simp only [h1] at h; cases h
  | ok doc =>
    simp only [h1] at h
    cases h2 : agentFromDoc e r g b doc llm with
    | error e2 => simp only [h2] at h; cases h
    | ok a2 =>
      simp only [h2] at h
      have hpair := Except.ok.inj h
      have ha : a2 = a := congrArg Prod.fst hpair
      have hcm : (load_config fs cm "agents" n).cm = cm2 :=
        congrArg Prod.snd hpair
      constructor
      · rw [← hcm]
        exact load_config_extends fs cm "agents" n
      · intro cm3 hext
        have hc2 : assocFind cm2.cache ("agents" ++ "_" ++ n) = some doc := by
          rw [← hcm]
          exact load_ok_cache h1
        have hc3 : assocFind cm3.cache ("agents" ++ "_" ++ n) = some doc :=
          hext _ _ hc2
        unfold mkAgentAccessor
        rw [load_cached hc3]
        simp only [h2, ha]

/-- A successful `BaseCrew` task accessor run extends the cache; replayed
from any later state it returns the same task and leaves the state unchanged;
and its agent accessor, replayed from any later state, returns exactly the
task's assigned agent. -/
theorem mkTaskAccessor_spec (n e d ed : String)
    (A : FS → ConfigManager → String → Except CrewErr (Agent × ConfigManager))
    (fs : FS) (cm : ConfigManager) (llm : String) (t : STask)
    (cm2 : ConfigManager)
    (hA : ∀ cmX a cmB, A fs cmX llm = .ok (a, cmB) →
      CacheExtends cmX cmB ∧
      ∀ cm3, CacheExtends cmB cm3 → A fs cm3 llm = .ok (a, cm3))
    (h : mkTaskAccessor n e d ed A fs cm llm = .ok (t, cm2)) :
    CacheExtends cm cm2 ∧
    (∀ cm3, CacheExtends cm2 cm3 →
      mkTaskAccessor n e d ed A fs cm3 llm = .ok (t, cm3)) ∧
    (∀ cm3, CacheExtends cm2 cm3 → A fs cm3 llm = .ok (t.agent, cm3)) := by
  unfold mkTaskAccessor at h
  simp only [] at h
  cases h1 : (load_config fs cm "tasks" n).result with
  | error e1 => simp only [h1] at h; cases h
  | ok tasks_config =>
    simp only [h1] at h
    cases h2 : yGetD tasks_config e (.dict []) with
    | error e2 => simp only [h2] at h; cases h
    | ok entry_config =>
      simp only [h2] at h
      cases h3 : yGetD entry_config "description" (.str d) with
      | error e3 => simp only [h3] at h; cases h
      | ok descr =>
        simp only [h3] at h
        cases h4 : A fs (load_config fs cm "tasks" n).cm llm with
        | error e4 => simp only [h4] at h; cases h
        | ok p =>
          obtain ⟨ag, cmA⟩ := p
          simp only [h4] at h
          cases h5 : yGetD entry_config "expected_output" (.str ed) with
          | error e5 => simp only [h5] at h; cases h
          | ok expected =>
            simp only [h5] at h
            have hpair := Except.ok.inj h
            have ht : STask.mk descr expected ag [] "raw" = t :=
              congrArg Prod.fst hpair
            have hcm : cmA = cm2 := congrArg Prod.snd hpair
            obtain ⟨hAext, hArep⟩ := hA _ _ _ h4
            have hext12 : CacheExtends cm cm2 := by
              rw [← hcm]
              exact cacheExtends_trans (load_config_extends fs cm "tasks" n) hAext
            have htasksCached :
                assocFind cm2.cache ("tasks" ++ "_" ++ n) = some tasks_config := by
              rw [← hcm]
              exact hAext _ _ (load_ok_cache h1)
            refine ⟨hext12, ?_, ?_⟩
            · intro cm3 hext
              have hc3 := hext _ _ htasksCached
              unfold mkTaskAccessor
              rw [load_cached hc3]
              simp only [h2, h3, h5]
              have hArep3 : A fs cm3 llm = .ok (ag, cm3) := by
                apply hArep
                rw [hcm]
                exact hext
              simp only [hArep3, ht]
            · intro cm3 hext
              have : A fs cm3 llm = .ok (ag, cm3) := by
                apply hArep
                rw [hcm]
                exact hext
              rw [this, ← ht]
              rfl

/-- Shape of a successful `StandardCrew.get_tasks` run: five tasks in source
order, all without context, with the first two assigned the analyst, the next
two the strategist and the last the creator — where each agent accessor,
run on the final manager state, reproduces exactly the assigned agent. -/
theorem std_tasks_shape (fs : FS) (cm : ConfigManager) (llm : String)
    (ts : List STask) (cmF : ConfigManager)
    (h : StandardCrew.get_tasks fs cm llm = .ok (ts, cmF)) :
    ∃ t1 t2 t3 t4 t5,
      ts = [t1, t2, t3, t4, t5] ∧
      t1.context = [] ∧ t2.context = [] ∧ t3.context = [] ∧ t4.context = [] ∧
      t5.context = [] ∧
      StandardCrew.lead_market_analyst fs cmF llm = .ok (t1.agent, cmF) ∧
      StandardCrew.lead_market_analyst fs cmF llm = .ok (t2.agent, cmF) ∧
      StandardCrew.chief_marketing_strategist fs cmF llm = .ok (t3.agent, cmF) ∧
      StandardCrew.chief_marketing_strategist fs cmF llm = .ok (t4.agent, cmF) ∧
      StandardCrew.creative_content_creator fs cmF llm = .ok (t5.agent, cmF) ∧
      t1.agent = t2.agent ∧ t3.agent = t4.agent := by
  unfold StandardCrew.get_tasks at h
  cases h1 : StandardCrew.research_task fs cm llm with
  | error e => simp only [h1] at h; cases h
  | ok p1 =>
    obtain ⟨t1, cm1⟩ := p1
    simp only [h1] at h
    cases h2 : StandardCrew.project_understanding_task fs cm1 llm with
    | error e => simp only [h2] at h; cases h
    | ok p2 =>
      obtain ⟨t2, cm2⟩ := p2
      simp only [h2] at h
      cases h3 : StandardCrew.marketing_strategy_task fs cm2 llm with
      | error e => simp only [h3] at h; cases h
      | ok p3 =>
        obtain ⟨t3, cm3⟩ := p3
        simp only [h3] at h
        cases h4 : StandardCrew.campaign_idea_task fs cm3 llm with
        | error e => simp only [h4] at h; cases h
        | ok p4 =>
          obtain ⟨t4, cm4⟩ := p4
          simp only [h4] at h
          cases h5 : StandardCrew.copy_creation_task fs cm4 llm with
          | error e => simp only [h5] at h; cases h
          | ok p5 =>
            obtain ⟨t5, cm5⟩ := p5
            simp only [h5] at h
            have hpair := Except.ok.inj h
            have hts : [t1, t2, t3, t4, t5] = ts := congrArg Prod.fst hpair
            have hcm : cm5 = cmF := congrArg Prod.snd hpair
            have hALead : ∀ cmX a cmB,
                StandardCrew.lead_market_analyst fs cmX llm = .ok (a, cmB) →
                CacheExtends cmX cmB ∧ ∀ cm3, CacheExtends cmB cm3 →
                  StandardCrew.lead_market_analyst fs cm3 llm = .ok (a, cm3) :=
              fun cmX a cmB hh => mkAgentAccessor_spec _ _ _ _ _ _ _ _ _ _ hh
            have hAChief : ∀ cmX a cmB,
                StandardCrew.chief_marketing_strategist fs cmX llm = .ok (a, cmB) →
                CacheExtends cmX cmB ∧ ∀ cm3, CacheExtends cmB cm3 →
                  StandardCrew.chief_marketing_strategist fs cm3 llm = .ok (a, cm3) :=
              fun cmX a cmB hh => mkAgentAccessor_spec _ _ _ _ _ _ _ _ _ _ hh
            have hACreative : ∀ cmX a cmB,
                StandardCrew.creative_content_creator fs cmX llm = .ok (a, cmB) →
                CacheExtends cmX cmB ∧ ∀ cm3, CacheExtends cmB cm3 →
                  StandardCrew.creative_content_creator fs cm3 llm = .ok (a, cm3) :=
              fun cmX a cmB hh => mkAgentAccessor_spec _ _ _ _ _ _ _ _ _ _ hh
            obtain ⟨e1, r1, g1⟩ := mkTaskAccessor_spec _ _ _ _ _ _ _ _ _ _ hALead h1
            obtain ⟨e2, r2, g2⟩ := mkTaskAccessor_spec _ _ _ _ _ _ _ _ _ _ hALead h2
            obtain ⟨e3, r3, g3⟩ := mkTaskAccessor_spec _ _ _ _ _ _ _ _ _ _ hAChief h3
            obtain ⟨e4, r4, g4⟩ := mkTaskAccessor_spec _ _ _ _ _ _ _ _ _ _ hAChief h4
            obtain ⟨e5, r5, g5⟩ :=
              mkTaskAccessor_spec _ _ _ _ _ _ _ _ _ _ hACreative h5
            have x5 : CacheExtends cm5 cmF := by rw [hcm]; exact cacheExtends_refl _
            have x4 : CacheExtends cm4 cmF := cacheExtends_trans e5 x5
            have x3 : CacheExtends cm3 cmF := cacheExtends_trans e4 x4
            have x2 : CacheExtends cm2 cmF := cacheExtends_trans e3 x3
            have x1 : CacheExtends cm1 cmF := cacheExtends_trans e2 x2
            have ga1 := g1 cmF x1
            have ga2 := g2 cmF x2
            have ga3 := g3 cmF x3
            have ga4 := g4 cmF x4
            have ga5 := g5 cmF x5
            refine ⟨t1, t2, t3, t4, t5, hts.symm,
              mkTaskAccessor_context_nil _ _ _ _ _ _ _ _ _ _ h1,
              mkTaskAccessor_context_nil _ _ _ _ _ _ _ _ _ _ h2,
              mkTaskAccessor_context_nil _ _ _ _ _ _ _ _ _ _ h3,
              mkTaskAccessor_context_nil _ _ _ _ _ _ _ _ _ _ h4,
              mkTaskAccessor_context_nil _ _ _ _ _ _ _ _ _ _ h5,
              ga1, ga2, ga3, ga4, ga5, ?_, ?_⟩
            · rw [ga1] at ga2
              exact congrArg Prod.fst (Except.ok.inj ga2)
            · rw [ga3] at ga4
              exact congrArg Prod.fst (Except.ok.inj ga4)

/-- A manager state in which both standard documents are cached as empty
mappings (a state any successful standard run reaches; used to instantiate
theorems). -/
def cmStdCached : ConfigManager :=
  ⟨"src/marketing_posts/config",
    [("agents_agents.yaml", Y.dict []), ("tasks_tasks.yaml", Y.dict [])]⟩

/-- A loaded agents document for `crew.py` with three distinguishable
entries. -/
def acfgMp : Y := .dict
  [("lead_market_analyst", .str "A"),
   ("chief_marketing_strategist", .str "S"),
   ("creative_content_creator", .str "C")]

/-- A loaded tasks document for `crew.py` with the five standard entries. -/
def tcfgMp : Y := .dict
  [("research_task", .null),
   ("project_understanding_task", .null),
   ("marketing_strategy_task", .null),
   ("campaign_idea_task", .null),
   ("copy_creation_task", .null)]

/-- The task list of a `BaseCrew` `get_tasks` outcome (empty on failure). -/
def stasksOf : Except CrewErr (List STask × ConfigManager) → List STask
  | .ok (ts, _) => ts
  | .error _ => []

/-- The manager state of a `BaseCrew` `get_tasks` outcome. -/
def cmOfS : Except CrewErr (List STask × ConfigManager) → ConfigManager
  | .ok (_, cm) => cm
  | .error _ => {}

/-- The agent of a `BaseCrew` agent accessor outcome (a null agent on
failure). -/
def agentOfA : Except CrewErr (Agent × ConfigManager) → Agent
  | .ok (a, _) => a
  | .error _ => ⟨.null, .null, .null, false, false, ""⟩

/-- The task list of a `@CrewBase` task-list outcome (empty on failure). -/
def mtasksOf : Except CrewErr (List MTask) → List MTask
  | .ok ts => ts
  | .error _ => []

/-- The agent of a `@CrewBase` agent accessor outcome (a null agent on
failure). -/
def magentOf : Except CrewErr MAgent → MAgent
  | .ok a => a
  | .error _ => ⟨.null, [], false, false, ""⟩

/-- Claim C2's catalog description, stated over a task sequence and the three
role agents: the five tasks in order, the claimed agent assignment, no
dependencies on the first four tasks, and `dependsOn = [marketing_strategy,
campaign_idea]` on copy-creation (for the `BaseCrew` task values). -/
def claimedVariantAStd (ts : List STask) (analyst strategist creator : Agent) :
    Prop :=
  ∃ t1 t2 t3 t4 t5, ts = [t1, t2, t3, t4, t5] ∧
    t1.agent = analyst ∧ t2.agent = analyst ∧ t3.agent = strategist ∧
    t4.agent = strategist ∧ t5.agent = creator ∧
    t1.context = [] ∧ t2.context = [] ∧ t3.context = [] ∧ t4.context = [] ∧
    t5.context = [t3, t4]

/-- The same catalog description over the `@CrewBase` task values. -/
def claimedVariantAMp (ts : List MTask) (analyst strategist creator : MAgent) :
    Prop :=
  ∃ t1 t2 t3 t4 t5, ts = [t1, t2, t3, t4, t5] ∧
    t1.agent = analyst ∧ t2.agent = analyst ∧ t3.agent = strategist ∧
    t4.agent = strategist ∧ t5.agent = creator ∧
    t1.context = [] ∧ t2.context = [] ∧ t3.context = [] ∧ t4.context = [] ∧
    t5.context = [t3, t4]

/-- C2, as stated, holds in neither standard catalog: in
`StandardCrew` (crews/standard_crew.py) the copy-creation task declares no
dependencies, and in `MarketingPostsCrew` (crew.py) the project-understanding
task is assigned the strategist, not the analyst. -/
theorem c2_counterexample :
    ¬ claimedVariantAStd
        (stasksOf (StandardCrew.get_tasks (fsOneAgents Y.null) cmStdCached "L"))
        (agentOfA (StandardCrew.lead_market_analyst (fsOneAgents Y.null)
          cmStdCached "L"))
        (agentOfA (StandardCrew.chief_marketing_strategist (fsOneAgents Y.null)
          cmStdCached "L"))
        (agentOfA (StandardCrew.creative_content_creator (fsOneAgents Y.null)
          cmStdCached "L")) ∧
    ¬ claimedVariantAMp
        (mtasksOf (MarketingPostsCrew.tasks acfgMp tcfgMp "L"))
        (magentOf (MarketingPostsCrew.lead_market_analyst acfgMp "L"))
        (magentOf (MarketingPostsCrew.chief_marketing_strategist acfgMp "L"))
        (magentOf (MarketingPostsCrew.creative_content_creator acfgMp "L")) := by
  constructor
  · intro hcl
    obtain ⟨t1, t2, t3, t4, t5, hts, ha1, ha2, ha3, ha4, ha5,
      hc1, hc2, hc3, hc4, hc5⟩ := hcl
    have hns : (stasksOf (StandardCrew.get_tasks (fsOneAgents Y.null)
        cmStdCached "L")).map (fun t => t.context.length) = [0, 0, 0, 0, 0] := rfl
    rw [hts] at hns
    simp only [List.map_cons, List.map_nil] at hns
    injection hns with e1 hns
    injection hns with e2 hns
    injection hns with e3 hns
    injection hns with e4 hns
    injection hns with e5 hns
    rw [hc5] at e5
    simp at e5
  · intro hcl
    obtain ⟨t1, t2, t3, t4, t5, hts, ha1, ha2, ha3, ha4, ha5,
      hc1, hc2, hc3, hc4, hc5⟩ := hcl
    have hag : (mtasksOf (MarketingPostsCrew.tasks acfgMp tcfgMp "L")).map
        (fun t => t.agent.config)
        = [Y.str "A", Y.str "S", Y.str "S", Y.str "C", Y.str "C"] := rfl
    rw [hts] at hag
    simp only [List.map_cons, List.map_nil] at hag
    injection hag with e1 hag
    injection hag with e2 hag
    have hA : (magentOf (MarketingPostsCrew.lead_market_analyst acfgMp
        "L")).config = Y.str "A" := rfl
    rw [ha2] at e2
    rw [hA] at e2
    injection e2 with e
    exact absurd e (by decide)

/-- C2 (amended): `StandardCrew` declares the five tasks in the claimed order
with the claimed agent assignment (first two to the analyst, next two to the
strategist, last to the creator — each agent accessor, replayed on the final
state, reproduces the assigned agent), but all five tasks, including
copy-creation, declare no dependencies; the claimed
`dependsOn = {marketing_strategy, campaign_idea}` on copy-creation exists
only in `crew.py`'s `MarketingPostsCrew`, where however project-understanding
is assigned the strategist and campaign-idea the creator. -/
theorem c2_variantA_catalog :
    (∀ (fs : FS) (cm : ConfigManager) (llm : String) (ts : List STask)
        (cmF : ConfigManager),
      StandardCrew.get_tasks fs cm llm = .ok (ts, cmF) →
      ∃ t1 t2 t3 t4 t5,
        ts = [t1, t2, t3, t4, t5] ∧
        t1.context = [] ∧ t2.context = [] ∧ t3.context = [] ∧
        t4.context = [] ∧ t5.context = [] ∧
        StandardCrew.lead_market_analyst fs cmF llm = .ok (t1.agent, cmF) ∧
        StandardCrew.lead_market_analyst fs cmF llm = .ok (t2.agent, cmF) ∧
        StandardCrew.chief_marketing_strategist fs cmF llm
          = .ok (t3.agent, cmF) ∧
        StandardCrew.chief_marketing_strategist fs cmF llm
          = .ok (t4.agent, cmF) ∧
        StandardCrew.creative_content_creator fs cmF llm
          = .ok (t5.agent, cmF) ∧
        t1.agent = t2.agent ∧ t3.agent = t4.agent) ∧
    (∀ (acfg tcfg : Y) (llm : String) (ts : List MTask),
      MarketingPostsCrew.tasks acfg tcfg llm = .ok ts →
      ∃ t1 t2 t3 t4 t5, ts = [t1, t2, t3, t4, t5] ∧
        t1.context = [] ∧ t2.context = [] ∧ t3.context = [] ∧
        t4.context = [] ∧ t5.context = [t3, t4] ∧
        (∃ aA, MarketingPostsCrew.lead_market_analyst acfg llm = .ok aA ∧
          t1.agent = aA) ∧
        (∃ aS, MarketingPostsCrew.chief_marketing_strategist acfg llm
          = .ok aS ∧ t2.agent = aS ∧ t3.agent = aS) ∧
        (∃ aC, MarketingPostsCrew.creative_content_creator acfg llm
          = .ok aC ∧ t4.agent = aC ∧ t5.agent = aC)) :=
  ⟨fun fs cm llm ts cmF h => std_tasks_shape fs cm llm ts cmF h,
   fun acfg tcfg llm ts h => mp_tasks_shape acfg tcfg llm ts h⟩

/-- Witness for the amended C2 theorem: both halves at concrete inputs on
which the runs succeed. -/
theorem c2_variantA_catalog_witness :
    (∃ t1 t2 t3 t4 t5,
      stasksOf (StandardCrew.get_tasks (fsOneAgents Y.null) cmStdCached "L")
        = [t1, t2, t3, t4, t5] ∧
      t1.context = [] ∧ t2.context = [] ∧ t3.context = [] ∧
      t4.context = [] ∧ t5.context = [] ∧
      StandardCrew.lead_market_analyst (fsOneAgents Y.null)
        (cmOfS (StandardCrew.get_tasks (fsOneAgents Y.null) cmStdCached "L")) "L"
        = .ok (t1.agent,
          cmOfS (StandardCrew.get_tasks (fsOneAgents Y.null) cmStdCached "L")) ∧
      StandardCrew.lead_market_analyst (fsOneAgents Y.null)
        (cmOfS (StandardCrew.get_tasks (fsOneAgents Y.null) cmStdCached "L")) "L"
        = .ok (t2.agent,
          cmOfS (StandardCrew.get_tasks (fsOneAgents Y.null) cmStdCached "L")) ∧
      StandardCrew.chief_marketing_strategist (fsOneAgents Y.null)
        (cmOfS (StandardCrew.get_tasks (fsOneAgents Y.null) cmStdCached "L")) "L"
        = .ok (t3.agent,
          cmOfS (StandardCrew.get_tasks (fsOneAgents Y.null) cmStdCached "L")) ∧
      StandardCrew.chief_marketing_strategist (fsOneAgents Y.null)
        (cmOfS (StandardCrew.get_tasks (fsOneAgents Y.null) cmStdCached "L")) "L"
        = .ok (t4.agent,
          cmOfS (StandardCrew.get_tasks (fsOneAgents Y.null) cmStdCached "L")) ∧
      StandardCrew.creative_content_creator (fsOneAgents Y.null)
        (cmOfS (StandardCrew.get_tasks (fsOneAgents Y.null) cmStdCached "L")) "L"
        = .ok (t5.agent,
          cmOfS (StandardCrew.get_tasks (fsOneAgents Y.null) cmStdCached "L")) ∧
      t1.agent = t2.agent ∧ t3.agent = t4.agent) ∧
    (∃ t1 t2 t3 t4 t5,
      mtasksOf (MarketingPostsCrew.tasks acfgMp tcfgMp "L")
        = [t1, t2, t3, t4, t5] ∧
      t1.context = [] ∧ t2.context = [] ∧ t3.context = [] ∧
      t4.context = [] ∧ t5.context = [t3, t4] ∧
      (∃ aA, MarketingPostsCrew.lead_market_analyst acfgMp "L" = .ok aA ∧
        t1.agent = aA) ∧
      (∃ aS, MarketingPostsCrew.chief_marketing_strategist acfgMp "L"
        = .ok aS ∧ t2.agent = aS ∧ t3.agent = aS) ∧
      (∃ aC, MarketingPostsCrew.creative_content_creator acfgMp "L"
        = .ok aC ∧ t4.agent = aC ∧ t5.agent = aC)) :=
  ⟨c2_variantA_catalog.1 (fsOneAgents Y.null) cmStdCached "L" _ _ rfl,
   c2_variantA_catalog.2 acfgMp tcfgMp "L" _ rfl⟩

/-- A manager state with both gaming documents cached as empty mappings. -/
def cmGamingCached : ConfigManager :=
  ⟨"src/marketing_posts/config",
    [("agents_agents_gaming.yaml", Y.dict []),
     ("tasks_tasks_gaming.yaml", Y.dict [])]⟩

/-- A loaded gaming agents document for `crew.py` with all six entries. -/
def acfgGmp : Y := .dict
  [("gaming_market_analyst", .null), ("gaming_strategist", .null),
   ("content_creator_gaming", .null), ("community_manager", .null),
   ("legal_compliance_specialist", .null),
   ("technical_marketing_specialist", .null)]

/-- A loaded gaming tasks document for `crew.py` with all eight entries. -/
def tcfgGmp : Y := .dict
  [("gaming_market_research_task", .null),
   ("gaming_audience_analysis_task", .null),
   ("gaming_marketing_strategy_task", .null),
   ("gaming_content_creation_task", .null),
   ("gaming_technical_positioning_task", .null),
   ("gaming_legal_risk_assessment_task", .null),
   ("gaming_community_strategy_task", .null),
   ("gaming_campaign_execution_task", .null)]

/-- Witness for C3: the invariant at concrete successful runs of all four
catalogs. -/
theorem c3_dependency_declared_earlier_witness :
    stasksDagOrdered
      (stasksOf (StandardCrew.get_tasks (fsOneAgents Y.null) cmStdCached "L")) ∧
    stasksDagOrdered
      (stasksOf (GamingCrew.get_tasks (fsOneAgents Y.null) cmGamingCached "L")) ∧
    mtasksDagOrdered (mtasksOf (MarketingPostsCrew.tasks acfgMp tcfgMp "L")) ∧
    mtasksDagOrdered
      (mtasksOf (GamingMarketingPostsCrew.tasks acfgGmp tcfgGmp "L")) :=
  ⟨c3_dependency_declared_earlier.1 (fsOneAgents Y.null) cmStdCached "L" _
      (cmOfS (StandardCrew.get_tasks (fsOneAgents Y.null) cmStdCached "L")) rfl,
   c3_dependency_declared_earlier.2.1 (fsOneAgents Y.null) cmGamingCached "L" _
      (cmOfS (GamingCrew.get_tasks (fsOneAgents Y.null) cmGamingCached "L")) rfl,
   c3_dependency_declared_earlier.2.2.1 acfgMp tcfgMp "L" _ rfl,
   c3_dependency_declared_earlier.2.2.2 acfgGmp tcfgGmp "L" _ rfl⟩

/-- The manager state of a `BaseCrew` agent accessor outcome. -/
def cmOfA : Except CrewErr (Agent × ConfigManager) → ConfigManager
  | .ok (_, cm) => cm
  | .error _ => {}

/-- Whether a `BaseCrew` agent accessor raised. -/
def crewAgentFailed : Except CrewErr (Agent × ConfigManager) → Bool
  | .error _ => true
  | .ok _ => false

/-- An agents document whose single entry has `role` and `goal` but no
`backstory`. -/
def agentsDocMissingBackstory : Y :=
  .dict [("lead_market_analyst",
    .dict [("role", .str "r"), ("goal", .str "g")])]

/-- C5, as stated, is false: over an agents document whose
`lead_market_analyst` entry is present but lacks `backstory`, the accessor
does not degrade to the named default backstory — the Configuration Store
load fails validation first, so no agent is constructed at all. -/
theorem c5_counterexample :
    crewAgentFailed (StandardCrew.lead_market_analyst
      (fsOneAgents agentsDocMissingBackstory) {} "L") = true ∧
    assocFind [("role", Y.str "r"), ("goal", Y.str "g")] "backstory" = none :=
  ⟨rfl, rfl⟩

/-- C5 (amended): for every agent accessor of the concrete variants (all of
which instantiate `mkAgentAccessor`), the literal-default fallback applies
exactly when the whole entry is absent from the loaded agents document — a
successful accessor run over a document without the entry yields the agent
built entirely from the accessor's named literal defaults; but a document
whose entry is present and missing one of the required fields makes the
(validated) load, and hence the accessor, fail with the wrapped
`ConfigValidationError` instead of degrading to a default. -/
theorem c5_defaults_only_for_absent_entry :
    (∀ (config_name entry role_d goal_d backstory_d : String) (fs : FS)
        (cm : ConfigManager) (llm : String) (a : Agent) (cm2 : ConfigManager)
        (es : List (String × Y)),
      mkAgentAccessor config_name entry role_d goal_d backstory_d fs cm llm
        = .ok (a, cm2) →
      (load_config fs cm "agents" config_name).result = .ok (Y.dict es) →
      assocFind es entry = none →
      a = ⟨.str role_d, .str goal_d, .str backstory_d, true, false, llm⟩) ∧
    (∀ (config_name entry role_d goal_d backstory_d : String) (fs : FS)
        (cm : ConfigManager) (llm : String) (es l : List (String × Y))
        (name f : String),
      assocFind cm.cache ("agents_" ++ config_name) = none →
      fs (cm.base_path ++ "/" ++ config_name) = some (.ok (Y.dict es)) →
      (name, Y.dict l) ∈ es → f ∈ agentsRequiredFields →
      assocFind l f = none →
      ∃ e, mkAgentAccessor config_name entry role_d goal_d backstory_d fs cm llm
        = .error (.load (.validation e)) ∧ e.field = none) := by
  constructor
  · intro config_name entry r g b fs cm llm a cm2 es h hload habs
    unfold mkAgentAccessor at h
    simp only [] at h
    simp only [hload] at h
    have hdoc : agentFromDoc entry r g b (Y.dict es) llm
        = .ok ⟨.str r, .str g, .str b, true, false, llm⟩ := by
      unfold agentFromDoc
      simp [yGetD, habs, assocFind]
    simp only [hdoc] at h
    exact (congrArg Prod.fst (Except.ok.inj h)).symm
  · intro config_name entry r g b fs cm llm es l name f hkey hfs hmem hf habs
    obtain ⟨e, hval, hload⟩ :=
      load_config_agents_invalid fs cm config_name es l name f
        hkey hfs hmem hf habs
    refine ⟨⟨"Ошибка загрузки " ++ config_name ++ ": " ++ excStr e,
      config_name, none⟩, ?_, rfl⟩
    unfold mkAgentAccessor
    simp only [hload]

/-- Witness for the amended C5 theorem: over a cached empty agents document
the analyst accessor yields the all-defaults agent; over a document whose
entry lacks `backstory` it fails with the wrapped field-less error. -/
theorem c5_defaults_only_for_absent_entry_witness :
    agentOfA (StandardCrew.lead_market_analyst (fsOneAgents Y.null)
        cmStdCached "L")
      = ⟨.str "Ведущий аналитик рынка",
         .str "Проведение глубокого анализа рынка",
         .str "Опытный аналитик с 10+ лет опыта", true, false, "L"⟩ ∧
    (∃ e, StandardCrew.lead_market_analyst
        (fsOneAgents agentsDocMissingBackstory) {} "L"
        = .error (.load (.validation e)) ∧ e.field = none) := by
  constructor
  · exact c5_defaults_only_for_absent_entry.1 "agents.yaml"
      "lead_market_analyst" "Ведущий аналитик рынка"
      "Проведение глубокого анализа рынка" "Опытный аналитик с 10+ лет опыта"
      (fsOneAgents Y.null) cmStdCached "L" _
      (cmOfA (StandardCrew.lead_market_analyst (fsOneAgents Y.null)
        cmStdCached "L")) [] rfl rfl rfl
  · exact c5_defaults_only_for_absent_entry.2 "agents.yaml"
      "lead_market_analyst" "Ведущий аналитик рынка"
      "Проведение глубокого анализа рынка" "Опытный аналитик с 10+ лет опыта"
      (fsOneAgents agentsDocMissingBackstory) {} "L" _
      [("role", Y.str "r"), ("goal", Y.str "g")] "lead_market_analyst"
      "backstory" rfl rfl (by simp [agentsDocMissingBackstory])
      (by simp [agentsRequiredFields]) rfl
